import Mathlib

/-!
Verification development for the real-karma-league repository.

The Python sources under scripts/ and app.py are shallowly embedded below:
pure functions become Lean functions over List, String, Int and Rat;
regex-based lexical helpers that a function merely calls are passed in as
explicit function parameters (the surrounding control flow is translated
verbatim); Python dictionaries become association lists with
insertion-order semantics; Python truthiness of optional values is made
explicit.  All definitions are executable.
-/

set_option maxRecDepth 4096
set_option maxHeartbeats 1000000

/-! Section: shared string utilities (Python str.strip, str.lower, substring test). -/

/-- Python whitespace characters (ASCII subset used by str.strip with no argument). -/
def isPyWs (c : Char) : Bool :=
  c = ' ' || c = '\t' || c = '\n' || c = '\r' || c = '\x0b' || c = '\x0c'

/-- Strip characters satisfying p from both ends of a character list. -/
def pyStripBy (p : Char → Bool) (l : List Char) : List Char :=
  ((l.dropWhile p).reverse.dropWhile p).reverse

/-- Python str.strip() on a character list. -/
def pyStrip (l : List Char) : List Char := pyStripBy isPyWs l

/-- Python str.strip() on a String. -/
def pyStripStr (s : String) : String := String.mk (pyStrip s.data)

/-- Python str.lower() (ASCII case folding, which covers the observed data). -/
def lowerStr (s : String) : String := String.mk (s.data.map Char.toLower)

/-- Sublist-as-contiguous-infix test: Python substring containment s1 in s2. -/
def subChars : List Char → List Char → Bool
  | small, [] => small.isEmpty
  | small, c :: rest => small.isPrefixOf (c :: rest) || subChars small rest

/-- Python substring test: s1 in s2. -/
def strIn (s1 s2 : String) : Bool := subChars s1.data s2.data

/-- Python truthiness of an optional string (None and the empty string are falsy). -/
def pyTruthyStr : Option String → Bool
  | none => false
  | some s => !s.data.isEmpty

/-- Python truthiness of an optional integer (None and 0 are falsy). -/
def pyTruthyInt : Option Int → Bool
  | none => false
  | some n => n ≠ 0

/-- Python truthiness of an optional rational (None and 0.0 are falsy). -/
def pyTruthyQ : Option ℚ → Bool
  | none => false
  | some q => q ≠ 0

/-! Section: clean_team_name (parse_rkl_games.py lines 341-351, same chain in
app.py lines 578-593).  Each re.sub pattern is anchored at the start or the
end of the string, so a single call performs at most one replacement; the
replacement is translated as a direct character-list rewrite. -/

/-- Decimal digit test matching the regex class backslash-d. -/
def isDig (c : Char) : Bool := c.isDigit

/-- Leading-seed removal: re.sub of an anchored pattern that strips optional
whitespace followed by one of: a parenthesised number, a number with a dot,
or a number with trailing whitespace. -/
def subLeadSeed (l : List Char) : List Char :=
  let rest := l.dropWhile isPyWs
  match rest with
  | '(' :: r1 =>
      let ds := r1.takeWhile isDig
      if ds.isEmpty then l
      else
        match r1.drop ds.length with
        | ')' :: r2 => r2.dropWhile isPyWs
        | _ => l
  | c :: _ =>
      if isDig c then
        let ds := rest.takeWhile isDig
        match rest.drop ds.length with
        | '.' :: r2 => r2.dropWhile isPyWs
        | c2 :: r2 =>
            if isPyWs c2 then (c2 :: r2).dropWhile isPyWs else l
        | [] => l
      else l
  | [] => l

/-- Parse one or more digits from a reversed character list; returns the rest. -/
def dropDigits1 (l : List Char) : Option (List Char) :=
  let ds := l.takeWhile isDig
  if ds.isEmpty then none else some (l.drop ds.length)

/-- Trailing-record removal: re.sub of the end-anchored pattern stripping
whitespace, a record of the form (W-L) or (W-L-T), and trailing whitespace. -/
def subTrailRecord (l : List Char) : List Char :=
  match l.reverse.dropWhile isPyWs with
  | ')' :: r1 =>
      match dropDigits1 r1 with
      | some ('-' :: r2) =>
          match dropDigits1 r2 with
          | some ('(' :: r3) => (r3.dropWhile isPyWs).reverse
          | some ('-' :: r3) =>
              match dropDigits1 r3 with
              | some ('(' :: r4) => (r4.dropWhile isPyWs).reverse
              | _ => l
          | _ => l
      | _ => l
  | _ => l

/-- Character class of digits and commas, for score tokens. -/
def isDigComma (c : Char) : Bool := isDig c || c = ','

/-- Trailing-score removal: re.sub of the end-anchored pattern stripping a
dash (hyphen or en dash), a comma-grouped number and an optional win or loss
glyph, with interleaved whitespace. -/
def subTrailScore (l : List Char) : List Char :=
  let r0 := l.reverse.dropWhile isPyWs
  let r1 :=
    match r0 with
    | c :: rest => if c = '✅' || c = '❌' then rest.dropWhile isPyWs else r0
    | [] => r0
  let ds := r1.takeWhile isDigComma
  if ds.isEmpty then l
  else
    match (r1.drop ds.length).dropWhile isPyWs with
    | c :: r2 =>
        if c = '-' || c = '–' then (r2.dropWhile isPyWs).reverse else l
    | [] => l

/-- Leading-rank removal: re.sub of the start-anchored pattern stripping a
number, a dot and trailing whitespace. -/
def subLeadRank (l : List Char) : List Char :=
  let ds := l.takeWhile isDig
  if ds.isEmpty then l
  else
    match l.drop ds.length with
    | '.' :: r => r.dropWhile isPyWs
    | _ => l

/-- Characters stripped from both ends at the final stage of clean_team_name. -/
def isStripPunct (c : Char) : Bool :=
  c = ' ' || c = '\t' || c = '\n' || c = '-' || c = '–' || c = ':' || c = '•' || c = '~'

/-- clean_team_name from parse_rkl_games.py: strip, remove a leading seed,
a trailing record, a trailing score, a leading rank, strip punctuation, and
truncate to 80 characters. -/
def cleanTeamName (s : String) : String :=
  if s.data.isEmpty then "" else
  let l := pyStrip s.data
  let l := subLeadSeed l
  let l := subTrailRecord l
  let l := subTrailScore l
  let l := subLeadRank l
  let l := pyStripBy isStripPunct l
  String.mk (l.take 80)

/-- Bound used by the final truncation of clean_team_name. -/
theorem cleanTeamName_data_length_le (x : String) : (cleanTeamName x).data.length ≤ 80 := by
  unfold cleanTeamName
  by_cases he : x.data.isEmpty
  · simp [he]
  · simp only [he, Bool.false_eq_true, if_false, List.length_take]
    exact Nat.min_le_left _ _

/-- Claim C9 (counterexample): clean_team_name is not idempotent.  On the
input Team (1-2) (3-4) one application strips only the last record, giving
Team (1-2); a second application strips the remaining record, giving Team. -/
theorem clean_team_name_not_idempotent :
    cleanTeamName (cleanTeamName "Team (1-2) (3-4)") ≠ cleanTeamName "Team (1-2) (3-4)" := by
  decide

/-- Claim C9 (amended): clean_team_name is idempotent on every input whose
once-cleaned form carries no further decoration, that is, the cleaned string
is left unchanged by each rewrite stage (leading seed, trailing record,
trailing score, leading rank, whitespace strip and punctuation strip).  In
general a second application can strip one further layer of decoration, as
the counterexample shows. -/
theorem clean_team_name_idempotent_of_settled (x : String)
    (h0 : pyStrip (cleanTeamName x).data = (cleanTeamName x).data)
    (h1 : subLeadSeed (cleanTeamName x).data = (cleanTeamName x).data)
    (h2 : subTrailRecord (cleanTeamName x).data = (cleanTeamName x).data)
    (h3 : subTrailScore (cleanTeamName x).data = (cleanTeamName x).data)
    (h4 : subLeadRank (cleanTeamName x).data = (cleanTeamName x).data)
    (h5 : pyStripBy isStripPunct (cleanTeamName x).data = (cleanTeamName x).data) :
    cleanTeamName (cleanTeamName x) = cleanTeamName x := by
  by_cases he : (cleanTeamName x).data.isEmpty
  · have hy : cleanTeamName x = "" := by
      cases hx : cleanTeamName x with
      | mk d =>
          rw [hx] at he
          cases d with
          | nil => rfl
          | cons c cs => simp [List.isEmpty] at he
    rw [hy]
    decide
  · conv_lhs => rw [cleanTeamName]
    rw [if_neg (by simp [he])]
    simp only [h0, h1, h2, h3, h4, h5]
    rw [List.take_of_length_le (cleanTeamName_data_length_le x)]

/-- Claim C9 witness: the amended idempotence theorem applied at the concrete
input Alpha (1-2), whose cleaned form Alpha is fully settled. -/
theorem clean_team_name_idempotent_of_settled_witness :
    cleanTeamName (cleanTeamName "Alpha (1-2)") = cleanTeamName "Alpha (1-2)" :=
  clean_team_name_idempotent_of_settled "Alpha (1-2)"
    (by decide) (by decide) (by decide) (by decide) (by decide) (by decide)

/-! Section: detect_content_type (parse_rkl_games.py lines 375-432) and
guess_kind (app.py lines 562-576).  Each regex signal computed on the text is
a parameter function; the branching is translated verbatim. -/

/-- Lexical signals consulted by the classifiers.  Every field models one
regex probe of the input text (search hit, or match count). -/
structure ClassifierSignals where
  topScores : String → Bool
  medianWord : String → Bool
  winloss : String → Bool
  hasScores : String → Bool
  hasRecords : String → Bool
  hasSeparator : String → Bool
  recordCount : String → Nat
  mentionCount : String → Nat
  hasVs : String → Bool
  hasGotd : String → Bool
  hasLineupsWord : String → Bool
  largeScores : String → Bool
  roundName : String → Bool
  hasMention : String → Bool

/-- detect_content_type from parse_rkl_games.py: strict priority order,
first match wins, defaulting to other. -/
def detectContentType (M : ClassifierSignals) (text : String) : String :=
  if text = "" then "other"
  else if M.topScores text ∨ M.medianWord text then "leaderboard"
  else if M.winloss text ∧ M.hasScores text then "result"
  else if M.recordCount text ≥ 2 ∧ M.hasScores text ∧ M.largeScores text then "result"
  else if M.hasRecords text ∧ M.hasSeparator text ∧ M.hasScores text then "result"
  else if M.hasGotd text ∧ M.mentionCount text ≥ 4 then "lineup"
  else if M.hasVs text ∧ M.mentionCount text ≥ 2 then "lineup"
  else if M.hasLineupsWord text ∧ M.mentionCount text ≥ 2 then "lineup"
  else if M.hasRecords text ∧ M.mentionCount text ≥ 4 ∧ M.hasSeparator text then "lineup"
  else if M.roundName text ∧ M.mentionCount text ≥ 2 ∧ (M.hasVs text ∨ M.hasSeparator text) then "lineup"
  else if M.mentionCount text ≥ 6 ∧ M.hasSeparator text then "lineup"
  else "other"

/-- guess_kind from app.py: the same priority scheme in its reduced form. -/
def guessKind (M : ClassifierSignals) (text : String) : String :=
  if M.topScores text ∨ M.medianWord text then "leaderboard"
  else if M.winloss text ∧ M.hasScores text then "result"
  else if (M.hasLineupsWord text ∨ M.hasVs text) ∧ M.hasMention text then "lineup"
  else if M.hasGotd text ∧ M.hasMention text then "lineup"
  else if M.roundName text ∧ M.hasMention text ∧ M.hasVs text then "lineup"
  else "other"

/-- Absence of every lexical signal on the given text. -/
def signalFree (M : ClassifierSignals) (text : String) : Prop :=
  M.topScores text = false ∧ M.medianWord text = false ∧ M.winloss text = false ∧
  M.hasScores text = false ∧ M.hasRecords text = false ∧ M.hasSeparator text = false ∧
  M.recordCount text = 0 ∧ M.mentionCount text = 0 ∧ M.hasVs text = false ∧
  M.hasGotd text = false ∧ M.hasLineupsWord text = false ∧ M.largeScores text = false ∧
  M.roundName text = false ∧ M.hasMention text = false

/-- Label inventory for detect_content_type. -/
theorem detectContentType_label (M : ClassifierSignals) (text : String) :
    detectContentType M text = "leaderboard" ∨ detectContentType M text = "result" ∨
      detectContentType M text = "lineup" ∨ detectContentType M text = "other" := by
  unfold detectContentType
  split_ifs <;>
    first
      | exact Or.inl rfl
      | exact Or.inr (Or.inl rfl)
      | exact Or.inr (Or.inr (Or.inl rfl))
      | exact Or.inr (Or.inr (Or.inr rfl))

/-- Label inventory for guess_kind. -/
theorem guessKind_label (M : ClassifierSignals) (text : String) :
    guessKind M text = "leaderboard" ∨ guessKind M text = "result" ∨
      guessKind M text = "lineup" ∨ guessKind M text = "other" := by
  unfold guessKind
  split_ifs <;>
    first
      | exact Or.inl rfl
      | exact Or.inr (Or.inl rfl)
      | exact Or.inr (Or.inr (Or.inl rfl))
      | exact Or.inr (Or.inr (Or.inr rfl))

/-- Signal-free text falls through every branch of detect_content_type. -/
theorem detectContentType_signalFree (M : ClassifierSignals) (text : String)
    (hs : signalFree M text) : detectContentType M text = "other" := by
  obtain ⟨s1, s2, s3, s4, s5, s6, s7, s8, s9, s10, s11, s12, s13, s14⟩ := hs
  unfold detectContentType
  by_cases he : text = ""
  · rw [if_pos he]
  · rw [if_neg he, if_neg (by simp [s1, s2]), if_neg (by simp [s3]),
      if_neg (by simp [s4]), if_neg (by simp [s5]), if_neg (by simp [s10]),
      if_neg (by simp [s9]), if_neg (by simp [s11]), if_neg (by simp [s5]),
      if_neg (by simp [s13]), if_neg (by simp [s6])]

/-- Claim C8: classification is total with exactly four possible labels, never
raises (it is a total function by construction), maps empty or signal-free
text to other, and applies the leaderboard check first, so an aggregate-score
header or a median mention wins over any other signals; likewise for the
guess_kind variant in app.py. -/
theorem content_classification_total_and_prioritized (M : ClassifierSignals) (text : String) :
    (detectContentType M text = "leaderboard" ∨ detectContentType M text = "result" ∨
      detectContentType M text = "lineup" ∨ detectContentType M text = "other") ∧
    (text = "" → detectContentType M text = "other") ∧
    (text ≠ "" → (M.topScores text ∨ M.medianWord text) →
      detectContentType M text = "leaderboard") ∧
    (signalFree M text → detectContentType M text = "other") ∧
    (guessKind M text = "leaderboard" ∨ guessKind M text = "result" ∨
      guessKind M text = "lineup" ∨ guessKind M text = "other") ∧
    ((M.topScores text ∨ M.medianWord text) → guessKind M text = "leaderboard") := by
  refine ⟨detectContentType_label M text, ?_, ?_, detectContentType_signalFree M text,
    guessKind_label M text, ?_⟩
  · intro h; unfold detectContentType; rw [if_pos h]
  · intro h1 h2; unfold detectContentType; rw [if_neg h1, if_pos h2]
  · intro h; unfold guessKind; rw [if_pos h]

/-- Concrete signal package with every probe silent; used by the C8 witness. -/
def sigSilent : ClassifierSignals :=
  { topScores := fun _ => false, medianWord := fun _ => false, winloss := fun _ => false,
    hasScores := fun _ => false, hasRecords := fun _ => false, hasSeparator := fun _ => false,
    recordCount := fun _ => 0, mentionCount := fun _ => 0, hasVs := fun _ => false,
    hasGotd := fun _ => false, hasLineupsWord := fun _ => false, largeScores := fun _ => false,
    roundName := fun _ => false, hasMention := fun _ => false }

/-- Concrete signal package whose median probe fires together with result and
lineup signals; used by the C8 witness to exercise the priority conjunct. -/
def sigLoud : ClassifierSignals :=
  { topScores := fun _ => false, medianWord := fun _ => true, winloss := fun _ => true,
    hasScores := fun _ => true, hasRecords := fun _ => true, hasSeparator := fun _ => true,
    recordCount := fun _ => 3, mentionCount := fun _ => 9, hasVs := fun _ => true,
    hasGotd := fun _ => true, hasLineupsWord := fun _ => true, largeScores := fun _ => true,
    roundName := fun _ => true, hasMention := fun _ => true }

/-- Claim C8 witness: the classification theorem applied at concrete signal
packages and texts, discharging each hypothesis. -/
theorem content_classification_total_and_prioritized_witness :
    detectContentType sigSilent "" = "other" ∧
    detectContentType sigLoud "median 40,000" = "leaderboard" ∧
    detectContentType sigSilent "plain chatter" = "other" ∧
    guessKind sigLoud "median 40,000" = "leaderboard" :=
  ⟨(content_classification_total_and_prioritized sigSilent "").2.1 rfl,
   (content_classification_total_and_prioritized sigLoud "median 40,000").2.2.1
     (by decide) (Or.inr rfl),
   (content_classification_total_and_prioritized sigSilent "plain chatter").2.2.2.1
     ⟨rfl, rfl, rfl, rfl, rfl, rfl, rfl, rfl, rfl, rfl, rfl, rfl, rfl, rfl⟩,
   (content_classification_total_and_prioritized sigLoud "median 40,000").2.2.2.2.2
     (Or.inr rfl)⟩

/-! Section: extract_game_result_data (parse_rkl_games.py lines 833-920); the
identical winner logic appears in extract_game_result (app.py lines 221-327).
The per-line regex probes (round-name search, separator test, adjustment
header, result-line parse, adjustment-line parse) are parameter functions;
the line loop, the accumulation of result and adjustment lines, the winner
precedence and the adjustment matching are translated verbatim.  A text is
modelled by its list of lines. -/

/-- Outcome mark found by detect_winner on the trailing part of a line. -/
inductive WinLoss
  | win
  | loss
deriving DecidableEq, Repr

/-- Parsed content of one result line, as returned by parse_result_line. -/
structure ResultLine where
  team : String
  recordW : Nat
  recordL : Nat
  score : Option ℚ
  seed : Option String
  winnerMark : Option WinLoss
deriving DecidableEq, Repr

/-- Regex-level probes used by the result-extraction loop. -/
structure ResultTextModel where
  roundNameHit : String → Bool
  sepLine : String → Bool
  adjHeader : String → Bool
  parseResultLine : String → Option ResultLine
  parseAdjLine : String → Option (String × ℚ)

/-- Accumulator of the line loop of extract_game_result_data. -/
structure ScanState where
  resultLines : List ResultLine
  adjustments : List (String × ℚ)
  inAdjSection : Bool
  roundName : Option String
deriving DecidableEq, Repr

/-- One iteration of the line loop of extract_game_result_data. -/
def scanResultStep (M : ResultTextModel) (st : ScanState) (ln : String) : ScanState :=
  let s := pyStripStr ln
  if st.resultLines.isEmpty ∧ st.roundName = none ∧ M.roundNameHit s then
    { st with roundName := some s }
  else if M.sepLine s then st
  else if M.adjHeader s then { st with inAdjSection := true }
  else
    match M.parseResultLine s with
    | some p => { st with resultLines := st.resultLines ++ [p] }
    | none =>
        if st.inAdjSection ∨ st.resultLines.length ≥ 2 then
          match M.parseAdjLine s with
          | some a => { st with adjustments := st.adjustments ++ [a] }
          | none => st
        else st

/-- The full line loop of extract_game_result_data. -/
def scanResultLines (M : ResultTextModel) (lines : List String) : ScanState :=
  lines.foldl (scanResultStep M) ⟨[], [], false, none⟩

/-- Output record of extract_game_result_data. -/
structure GameResultData where
  teamA : String
  teamB : String
  scoreA : Option ℚ
  scoreB : Option ℚ
  seedA : Option String
  seedB : Option String
  winner : Option String
  adjustmentA : Option ℚ
  adjustmentB : Option ℚ
  roundName : Option String
deriving DecidableEq, Repr

/-- Winner determination of extract_game_result_data, translated verbatim:
note the Python conjunction tests truthiness of the score fields, so a score
equal to zero disables the numeric fallback. -/
def computeWinner (a b : ResultLine) : Option String :=
  if a.winnerMark = some .win then some "A"
  else if b.winnerMark = some .win then some "B"
  else if a.winnerMark = some .loss then some "B"
  else if b.winnerMark = some .loss then some "A"
  else if pyTruthyQ a.score ∧ pyTruthyQ b.score then
    if a.score.getD 0 > b.score.getD 0 then some "A"
    else if b.score.getD 0 > a.score.getD 0 then some "B"
    else none
  else none

/-- Adjustment-to-team matching loop of extract_game_result_data. -/
def matchAdjustments (adjs : List (String × ℚ)) (ta tb : String) : Option ℚ × Option ℚ :=
  adjs.foldl
    (fun (acc : Option ℚ × Option ℚ) adj =>
      let adjTeam := lowerStr adj.1
      if strIn adjTeam (lowerStr ta) || strIn (lowerStr ta) adjTeam then (some adj.2, acc.2)
      else if strIn adjTeam (lowerStr tb) || strIn (lowerStr tb) adjTeam then (acc.1, some adj.2)
      else acc)
    (none, none)

/-- extract_game_result_data: scan the lines, require at least two parsed
result lines, and assemble the output record from the first two. -/
def extractGameResultData (M : ResultTextModel) (lines : List String) : Option GameResultData :=
  match (scanResultLines M lines).resultLines with
  | a :: b :: _ =>
      some { teamA := a.team, teamB := b.team, scoreA := a.score, scoreB := b.score,
             seedA := a.seed, seedB := b.seed, winner := computeWinner a b,
             adjustmentA := (matchAdjustments (scanResultLines M lines).adjustments a.team b.team).1,
             adjustmentB := (matchAdjustments (scanResultLines M lines).adjustments a.team b.team).2,
             roundName := (scanResultLines M lines).roundName }
  | _ => none

/-- Winner precedence written from the amended claim: a win glyph on side A
or B gives that side the win; otherwise a loss glyph gives the other side the
win; otherwise, when both scores are present and nonzero, the strictly higher
score wins; in every remaining case, including equal scores and a present
but zero score, the winner is null. -/
def winnerPrecedenceSpec (a b : ResultLine) : Option String :=
  if a.winnerMark = some .win then some "A"
  else if b.winnerMark = some .win then some "B"
  else if a.winnerMark = some .loss then some "B"
  else if b.winnerMark = some .loss then some "A"
  else
    match a.score, b.score with
    | some x, some y =>
        if x ≠ 0 ∧ y ≠ 0 then
          if x > y then some "A" else if y > x then some "B" else none
        else none
    | _, _ => none

/-- The code winner agrees with the amended precedence description. -/
theorem computeWinner_eq_precedenceSpec (a b : ResultLine) :
    computeWinner a b = winnerPrecedenceSpec a b := by
  unfold computeWinner winnerPrecedenceSpec
  cases ha : a.score <;> cases hb : b.score <;> simp [pyTruthyQ, Option.getD]

/-- Concrete probe package realising parse_result_line on the two lines of
the C3 counterexample: a zero score on side A and a plain score on side B,
no glyphs, no round, separator or adjustment hits. -/
def rtmZeroScore : ResultTextModel :=
  { roundNameHit := fun _ => false, sepLine := fun _ => false, adjHeader := fun _ => false,
    parseResultLine := fun s =>
      if s = "TeamX (3-1) - 0" then
        some { team := "TeamX", recordW := 3, recordL := 1, score := some 0,
               seed := none, winnerMark := none }
      else if s = "TeamY (1-3) - 38,000" then
        some { team := "TeamY", recordW := 1, recordL := 3, score := some 38000,
               seed := none, winnerMark := none }
      else none,
    parseAdjLine := fun _ => none }

/-- Claim C3 (counterexample): on a glyph-free result text whose two parsed
lines carry the scores 0 and 38000, both scores are present and side B is
strictly higher, yet the extracted winner is null, because the Python score
conjunction tests truthiness and a 0.0 score is falsy.  The claim as stated
requires winner B here. -/
theorem extract_result_zero_score_counterexample :
    (extractGameResultData rtmZeroScore ["TeamX (3-1) - 0", "TeamY (1-3) - 38,000"]).map
        GameResultData.winner = some none ∧
    (extractGameResultData rtmZeroScore ["TeamX (3-1) - 0", "TeamY (1-3) - 38,000"]).map
        GameResultData.scoreA = some (some 0) ∧
    (extractGameResultData rtmZeroScore ["TeamX (3-1) - 0", "TeamY (1-3) - 38,000"]).map
        GameResultData.scoreB = some (some 38000) := by
  refine ⟨?_, ?_, ?_⟩ <;> decide

/-- Claim C3 (amended): for every result text whose extraction succeeds, that
is, the line scan yields at least two parsed team-record lines, the winner
field follows this precedence: a win glyph on side A or B sets that side;
otherwise a loss glyph on a side sets the other side; otherwise, when both
scores are present and nonzero, the strictly higher score wins; and the
winner is null in every remaining case, including equal scores and a present
but zero score. -/
theorem extract_result_winner_precedence (M : ResultTextModel) (lines : List String)
    (a b : ResultLine) (rest : List ResultLine)
    (h : (scanResultLines M lines).resultLines = a :: b :: rest) :
    (extractGameResultData M lines).map GameResultData.winner =
      some (winnerPrecedenceSpec a b) := by
  unfold extractGameResultData
  rw [h]
  simp [computeWinner_eq_precedenceSpec]

/-- Claim C3 witness: the amended precedence theorem applied at the concrete
counterexample input, where it derives the null winner. -/
theorem extract_result_winner_precedence_witness :
    (extractGameResultData rtmZeroScore ["TeamX (3-1) - 0", "TeamY (1-3) - 38,000"]).map
        GameResultData.winner = some none :=
  by
    have h := extract_result_winner_precedence rtmZeroScore
      ["TeamX (3-1) - 0", "TeamY (1-3) - 38,000"]
      { team := "TeamX", recordW := 3, recordL := 1, score := some 0,
        seed := none, winnerMark := none }
      { team := "TeamY", recordW := 1, recordL := 3, score := some 38000,
        seed := none, winnerMark := none }
      [] (by decide)
    rw [h]
    decide

/-! Section: data model of the linking stage.  Dates are the YYYY-MM-DD
strings produced by parse_timestamp_to_date (the empty string on parse
failure).  The two datetime library operations used by the linker and the
backfill loop are a parameter structure: parseIso models
datetime.fromisoformat on a string (none models the raised exception) and
fmtDateTime models the isoformat rendering of the shifted datetime object,
which carries a T00:00:00 time component. -/

/-- Lookup in an insertion-ordered association list (Python dict get). -/
def dictGet {α : Type} (l : List (String × α)) (k : String) : Option α :=
  (l.find? (fun p => p.1 = k)).map Prod.snd

/-- The datetime operations used by the linker, as abstract parameters. -/
structure DateOps where
  parseIso : String → Option Int
  fmtDateTime : Int → String

/-- PlayerStat dataclass from parse_rkl_games.py. -/
structure PlayerStatRec where
  handle : String
  score : Option ℚ := none
  rank : Option Int := none
  isCaptain : Bool := false
  team : String := ""
deriving DecidableEq, Repr

/-- CompleteGame dataclass from parse_rkl_games.py. -/
structure CompleteGame where
  gameId : Nat
  gameDate : String
  gameType : String
  teamA : String
  teamB : String
  captainA : Option String := none
  captainB : Option String := none
  playersA : List String := []
  playersB : List String := []
  scoreA : Option ℚ := none
  scoreB : Option ℚ := none
  winner : Option String := none
  adjustmentA : Option ℚ := none
  adjustmentB : Option ℚ := none
  playerStats : List PlayerStatRec := []
  seedA : Option String := none
  seedB : Option String := none
  roundName : Option String := none
  lineupCommentId : Option Nat := none
  resultCommentId : Option Nat := none
  lineupThreadId : Option Nat := none
  resultThreadId : Option Nat := none
deriving DecidableEq, Repr

/-! Section: score backfill inside run_parser (parse_rkl_games.py lines
1513-1547).  The auxiliary index built from leaderboard posts maps a date
string to an association list from lowercased team name to score data. -/

/-- Value stored in the leaderboard index for one team. -/
structure ScoreInfo where
  score : ℚ
  winnerFlag : Option Bool
deriving DecidableEq, Repr

/-- One offset probe of the backfill loop: parse the game date, render the
shifted datetime, and require entries for both teams at that key. -/
def backfillProbe (D : DateOps) (lb : String → List (String × ScoreInfo))
    (g : CompleteGame) (offset : Int) : Option (ScoreInfo × ScoreInfo) :=
  match D.parseIso g.gameDate with
  | none => none
  | some d =>
      let dateScores := lb (D.fmtDateTime (d + offset))
      if dateScores.isEmpty then none
      else
        match dictGet dateScores (lowerStr g.teamA), dictGet dateScores (lowerStr g.teamB) with
        | some ia, some ib => some (ia, ib)
        | _, _ => none

/-- The backfill pass for one game: probe offsets 0, 1, 2 in order and fill
from the first offset where both teams have entries, re-deriving the winner
by win-flag precedence and then score comparison. -/
def backfillScores (D : DateOps) (lb : String → List (String × ScoreInfo))
    (g : CompleteGame) : CompleteGame :=
  if g.scoreA = none ∧ g.gameDate ≠ "" then
    match ([0, 1, 2] : List Int).findSome? (backfillProbe D lb g) with
    | none => g
    | some (ia, ib) =>
        { g with scoreA := some ia.score, scoreB := some ib.score,
                 winner :=
                   if ia.winnerFlag = some true then some "A"
                   else if ib.winnerFlag = some true then some "B"
                   else if ia.score > ib.score then some "A"
                   else if ib.score > ia.score then some "B"
                   else g.winner }
  else g

/-- Structural reason the backfill never fires: every probe key carries the
datetime rendering, so when the index has no entry at any datetime-formatted
key, every game is left unchanged. -/
theorem backfillScores_id_of_fmt_keys_empty (D : DateOps)
    (lb : String → List (String × ScoreInfo)) (g : CompleteGame)
    (h : ∀ x : Int, lb (D.fmtDateTime x) = []) : backfillScores D lb g = g := by
  unfold backfillScores
  split_ifs with hc
  · have hp : ∀ k : Int, backfillProbe D lb g k = none := by
      intro k
      unfold backfillProbe
      cases D.parseIso g.gameDate with
      | none => rfl
      | some d => simp [h (d + k)]
    simp [List.findSome?, hp 0, hp 1, hp 2]
  · rfl

/-- Concrete datetime operations on the dates of the C7 failing input,
agreeing with the Python library: fromisoformat accepts 2025-03-01, and the
isoformat rendering of the shifted datetime includes the time component. -/
def dOpsMarch : DateOps :=
  { parseIso := fun s => if s = "2025-03-01" then some 0 else none,
    fmtDateTime := fun d =>
      if d = 0 then "2025-03-01T00:00:00"
      else if d = 1 then "2025-03-02T00:00:00"
      else if d = 2 then "2025-03-03T00:00:00"
      else "" }

/-- Leaderboard index of the C7 failing input: both teams have entries under
the plain date key 2025-03-01, the key format parse_timestamp_to_date
produces. -/
def lbMarch : String → List (String × ScoreInfo) := fun s =>
  if s = "2025-03-01" then
    [("alpha", { score := 34565, winnerFlag := some true }),
     ("beta", { score := 30000, winnerFlag := some false })]
  else []

/-- Game of the C7 failing input: dated 2025-03-01, both scores missing. -/
def gameMarch : CompleteGame :=
  { gameId := 1, gameDate := "2025-03-01", gameType := "regular",
    teamA := "Alpha", teamB := "Beta" }

/-- Claim C7 (code bug): at the failing input, the leaderboard index holds
entries for both teams on the exact game date, yet the backfill fills
nothing, because every probe key is the datetime rendering with a T00:00:00
suffix while the index is keyed by plain dates; the probe can never hit and
the backfill loop is dead code. -/
theorem score_backfill_dead_at_failing_input :
    backfillScores dOpsMarch lbMarch gameMarch = gameMarch ∧
    lbMarch gameMarch.gameDate ≠ [] ∧
    dictGet (lbMarch gameMarch.gameDate) (lowerStr gameMarch.teamA) ≠ none ∧
    dictGet (lbMarch gameMarch.gameDate) (lowerStr gameMarch.teamB) ≠ none ∧
    gameMarch.scoreA = none ∧ gameMarch.scoreB = none := by
  refine ⟨?_, by decide, by decide, by decide, rfl, rfl⟩
  decide

/-! Section: link_results_to_lineups (parse_rkl_games.py lines 1018-1178),
with its helpers normalize_team_name, teams_match and fuzzy_team_match
(lines 972-1015). -/

/-- GameLineup dataclass (parse_rkl_games.py lines 158-175). -/
structure GameLineupRec where
  commentId : Nat
  threadId : Nat
  gameDate : String
  teamA : String
  teamB : String
  captainA : Option String := none
  captainB : Option String := none
  playersA : List String := []
  playersB : List String := []
  seedA : Option String := none
  seedB : Option String := none
  roundName : Option String := none
  isPostseason : Bool := false
deriving DecidableEq, Repr

/-- GameResult dataclass (parse_rkl_games.py lines 178-198). -/
structure GameResultRec where
  commentId : Nat
  threadId : Nat
  gameDate : String
  teamA : String
  teamB : String
  scoreA : Option ℚ := none
  scoreB : Option ℚ := none
  winner : Option String := none
  adjustmentA : Option ℚ := none
  adjustmentB : Option ℚ := none
  playerStats : List PlayerStatRec := []
  seedA : Option String := none
  seedB : Option String := none
  roundName : Option String := none
  isPostseason : Bool := false
deriving DecidableEq, Repr

/-- normalize_team_name: lowercase and strip, empty on a falsy name. -/
def normalizeTeamName (name : String) : String :=
  if name = "" then "" else pyStripStr (lowerStr name)

/-- Containment in either direction, guarded against empty operands. -/
def fuzzyContain (s1 s2 : String) : Bool :=
  if s1 = "" || s2 = "" then false else strIn s1 s2 || strIn s2 s1

/-- teams_match: exact case-insensitive equality in either order, else
substring containment pairing in either order. -/
def teamsMatch (la0 lb0 ra0 rb0 : String) : Bool :=
  let la := normalizeTeamName la0
  let lb := normalizeTeamName lb0
  let ra := normalizeTeamName ra0
  let rb := normalizeTeamName rb0
  ((la == ra && lb == rb) || (la == rb && lb == ra)) ||
    ((fuzzyContain la ra && fuzzyContain lb rb) || (fuzzyContain la rb && fuzzyContain lb ra))

/-- Restriction of a normalized name to lowercase letters and digits. -/
def alnumOnly (s : String) : String :=
  String.mk (s.data.filter (fun c => ('a' ≤ c && c ≤ 'z') || ('0' ≤ c && c ≤ '9')))

/-- fuzzy_team_match: exact, substring, or alphanumeric-core equality. -/
def fuzzyTeamMatch (n1 n2 : String) : Bool :=
  let m1 := normalizeTeamName n1
  let m2 := normalizeTeamName n2
  if m1 = "" || m2 = "" then false
  else if m1 == m2 then true
  else if strIn m1 m2 || strIn m2 m1 then true
  else alnumOnly m1 == alnumOnly m2

/-- Canonically ordered pair, modelling tuple(sorted([a, b])). -/
def sortPair (a b : String) : String × String :=
  if a ≤ b then (a, b) else (b, a)

/-- Insertion-ordered grouping step for the team-key index. -/
def insGroup (acc : List ((String × String) × List GameLineupRec)) (k : String × String)
    (lu : GameLineupRec) : List ((String × String) × List GameLineupRec) :=
  match acc with
  | [] => [(k, [lu])]
  | (k0, ls) :: rest =>
      if k0 = k then (k0, ls ++ [lu]) :: rest else (k0, ls) :: insGroup rest k lu

/-- The lineups_by_teams index: lineups with two nonempty normalized names,
grouped under the sorted name pair in dict insertion order. -/
def lineupsByTeams (lineups : List GameLineupRec) :
    List ((String × String) × List GameLineupRec) :=
  lineups.foldl
    (fun acc lu =>
      let ka := normalizeTeamName lu.teamA
      let kb := normalizeTeamName lu.teamB
      if ka ≠ "" ∧ kb ≠ "" then insGroup acc (sortPair ka kb) lu else acc)
    []

/-- Lookup in the team-key index. -/
def pairGet (l : List ((String × String) × List GameLineupRec)) (k : String × String) :
    Option (List GameLineupRec) :=
  (l.find? (fun p => p.1 = k)).map Prod.snd

/-- Candidate lineups for strategy 2: the exact team-key group when present,
otherwise all groups whose keys fuzzy-match the result key in either order. -/
def teamCandidates (lineups : List GameLineupRec) (rkey : String × String) :
    List GameLineupRec :=
  let groups := lineupsByTeams lineups
  let exact := (pairGet groups rkey).getD []
  if exact.isEmpty then
    groups.foldl
      (fun acc p =>
        if fuzzyTeamMatch p.1.1 rkey.1 && fuzzyTeamMatch p.1.2 rkey.2 then acc ++ p.2
        else if fuzzyTeamMatch p.1.1 rkey.2 && fuzzyTeamMatch p.1.2 rkey.1 then acc ++ p.2
        else acc)
      []
  else exact

/-- Search dates of strategy 1: the result date itself, then the isoformat
renderings of the one-to-three-days-earlier datetimes. -/
def potentialDates (D : DateOps) (res : GameResultRec) : List String :=
  res.gameDate ::
    (if res.gameDate ≠ "" then
      match D.parseIso res.gameDate with
      | some d => [D.fmtDateTime (d - 1), D.fmtDateTime (d - 2), D.fmtDateTime (d - 3)]
      | none => []
    else [])

/-- Strategy 1: first unconsumed lineup under a potential date key whose
teams match the result teams. -/
def strategy1Find (D : DateOps) (used : List Nat) (lineups : List GameLineupRec)
    (res : GameResultRec) : Option GameLineupRec :=
  ((potentialDates D res).flatMap (fun date => lineups.filter (fun lu => lu.gameDate = date))).find?
    (fun lu => !(used.contains lu.commentId) &&
      teamsMatch lu.teamA lu.teamB res.teamA res.teamB)

/-- Date-proximity test of strategy 2: both dates nonempty, both parse, and
the difference is at most seven days. -/
def datesWithin7 (D : DateOps) (luDate resDate : String) : Bool :=
  if luDate ≠ "" ∧ resDate ≠ "" then
    match D.parseIso luDate, D.parseIso resDate with
    | some a, some b => (b - a).natAbs ≤ 7
    | _, _ => false
  else false

/-- Strategy 2: first unconsumed team-key candidate within seven days. -/
def strategy2Find (D : DateOps) (used : List Nat) (lineups : List GameLineupRec)
    (res : GameResultRec) : Option GameLineupRec :=
  (teamCandidates lineups
      (sortPair (normalizeTeamName res.teamA) (normalizeTeamName res.teamB))).find?
    (fun lu => !(used.contains lu.commentId) && datesWithin7 D lu.gameDate res.gameDate)

/-- Combined lineup search for one result: strategy 1, then strategy 2. -/
def findLineupForResult (D : DateOps) (used : List Nat) (lineups : List GameLineupRec)
    (res : GameResultRec) : Option GameLineupRec :=
  (strategy1Find D used lineups res).orElse (fun _ => strategy2Find D used lineups res)

/-- Swapped-winner relabelling used when the pairing is built cross-wise. -/
def swapWinner (w : Option String) : Option String :=
  if w = some "A" then some "B" else if w = some "B" then some "A" else none

/-- Orientation test: the lineup team A differs from the result team A and
is in containment relation with the result team B. -/
def teamsSwapped (lu : GameLineupRec) (res : GameResultRec) : Bool :=
  let laN := normalizeTeamName lu.teamA
  let raN := normalizeTeamName res.teamA
  let rbN := normalizeTeamName res.teamB
  (laN != raN) && (strIn laN rbN || strIn rbN laN)

/-- CompleteGame built from a matched lineup and result, with cross
assignment of every side-indexed field under a swapped orientation. -/
def mkMatchedGame (gid : Nat) (lu : GameLineupRec) (res : GameResultRec) : CompleteGame :=
  let sw := teamsSwapped lu res
  { gameId := gid, gameDate := lu.gameDate,
    gameType := if lu.isPostseason then "postseason" else "regular",
    teamA := lu.teamA, teamB := lu.teamB,
    captainA := if sw then lu.captainB else lu.captainA,
    captainB := if sw then lu.captainA else lu.captainB,
    playersA := if sw then lu.playersB else lu.playersA,
    playersB := if sw then lu.playersA else lu.playersB,
    scoreA := if sw then res.scoreB else res.scoreA,
    scoreB := if sw then res.scoreA else res.scoreB,
    winner := if sw then swapWinner res.winner else res.winner,
    adjustmentA := if sw then res.adjustmentB else res.adjustmentA,
    adjustmentB := if sw then res.adjustmentA else res.adjustmentB,
    playerStats := res.playerStats,
    seedA := if sw then lu.seedB else lu.seedA,
    seedB := if sw then lu.seedA else lu.seedB,
    roundName := lu.roundName.orElse (fun _ => res.roundName),
    lineupCommentId := some lu.commentId,
    resultCommentId := some res.commentId,
    lineupThreadId := some lu.threadId,
    resultThreadId := some res.threadId }

/-- Result-only partial CompleteGame. -/
def mkResultOnlyGame (gid : Nat) (res : GameResultRec) : CompleteGame :=
  { gameId := gid, gameDate := res.gameDate,
    gameType := if res.isPostseason then "postseason" else "regular",
    teamA := res.teamA, teamB := res.teamB,
    scoreA := res.scoreA, scoreB := res.scoreB, winner := res.winner,
    adjustmentA := res.adjustmentA, adjustmentB := res.adjustmentB,
    playerStats := res.playerStats,
    seedA := res.seedA, seedB := res.seedB, roundName := res.roundName,
    resultCommentId := some res.commentId, resultThreadId := some res.threadId }

/-- Lineup-only partial CompleteGame. -/
def mkLineupOnlyGame (gid : Nat) (lu : GameLineupRec) : CompleteGame :=
  { gameId := gid, gameDate := lu.gameDate,
    gameType := if lu.isPostseason then "postseason" else "regular",
    teamA := lu.teamA, teamB := lu.teamB,
    captainA := lu.captainA, captainB := lu.captainB,
    playersA := lu.playersA, playersB := lu.playersB,
    seedA := lu.seedA, seedB := lu.seedB, roundName := lu.roundName,
    lineupCommentId := some lu.commentId, lineupThreadId := some lu.threadId }

/-- Mutable state of the linking loop. -/
structure LinkState where
  games : List CompleteGame
  usedLineupIds : List Nat
  nextId : Nat
deriving Repr

/-- One iteration of the result loop: match and consume a lineup, or emit a
result-only partial game. -/
def linkStep (D : DateOps) (lineups : List GameLineupRec) (st : LinkState)
    (res : GameResultRec) : LinkState :=
  match findLineupForResult D st.usedLineupIds lineups res with
  | some lu =>
      { games := st.games ++ [mkMatchedGame st.nextId lu res],
        usedLineupIds := st.usedLineupIds ++ [lu.commentId],
        nextId := st.nextId + 1 }
  | none =>
      { games := st.games ++ [mkResultOnlyGame st.nextId res],
        usedLineupIds := st.usedLineupIds,
        nextId := st.nextId + 1 }

/-- One iteration of the trailing pass: an unconsumed lineup becomes a
lineup-only game; the consumed set is not extended here, as in the source. -/
def lineupOnlyStep (st : LinkState) (lu : GameLineupRec) : LinkState :=
  if st.usedLineupIds.contains lu.commentId then st
  else { st with games := st.games ++ [mkLineupOnlyGame st.nextId lu],
                 nextId := st.nextId + 1 }

/-- Trailing pass: every lineup never consumed becomes a lineup-only game. -/
def lineupOnlyPass (st : LinkState) (lineups : List GameLineupRec) : LinkState :=
  lineups.foldl lineupOnlyStep st

/-- link_results_to_lineups: the result loop followed by the lineup pass. -/
def linkResultsToLineups (D : DateOps) (lineups : List GameLineupRec)
    (results : List GameResultRec) : List CompleteGame :=
  (lineupOnlyPass (results.foldl (linkStep D lineups) ⟨[], [], 1⟩) lineups).games

/-- Projection facts of the three game builders. -/
theorem mkMatchedGame_lineupCommentId (gid : Nat) (lu : GameLineupRec) (res : GameResultRec) :
    (mkMatchedGame gid lu res).lineupCommentId = some lu.commentId := rfl

/-- A result-only game references no lineup. -/
theorem mkResultOnlyGame_lineupCommentId (gid : Nat) (res : GameResultRec) :
    (mkResultOnlyGame gid res).lineupCommentId = none := rfl

/-- A lineup-only game references its source lineup. -/
theorem mkLineupOnlyGame_lineupCommentId (gid : Nat) (lu : GameLineupRec) :
    (mkLineupOnlyGame gid lu).lineupCommentId = some lu.commentId := rfl

/-- Every lineup selected by the combined search is unconsumed: both search
strategies skip candidates whose comment id is already in the used set. -/
theorem findLineupForResult_not_used (D : DateOps) (used : List Nat)
    (lineups : List GameLineupRec) (res : GameResultRec) (lu : GameLineupRec)
    (h : findLineupForResult D used lineups res = some lu) :
    lu.commentId ∉ used := by
  unfold findLineupForResult at h
  have key : ∀ (l : List GameLineupRec) (q : GameLineupRec → Bool),
      l.find? (fun x => !(used.contains x.commentId) && q x) = some lu →
      lu.commentId ∉ used := by
    intro l q hf
    have hp := List.find?_some hf
    rw [Bool.and_eq_true] at hp
    have := hp.1
    simp only [Bool.not_eq_true'] at this
    simpa using this
  cases h1 : strategy1Find D used lineups res with
  | some lu1 =>
      rw [h1] at h
      have h' : lu1 = lu := by simpa [Option.orElse] using h
      subst h'
      exact key _ _ h1
  | none =>
      rw [h1] at h
      have h' : strategy2Find D used lineups res = some lu := by
        simpa [Option.orElse] using h
      exact key _ _ h'

/-- Invariant of the result loop: the lineup references of the games built so
far are pairwise distinct and all recorded in the consumed set. -/
def LinkInv (st : LinkState) : Prop :=
  (st.games.filterMap CompleteGame.lineupCommentId).Nodup ∧
  ∀ i ∈ st.games.filterMap CompleteGame.lineupCommentId, i ∈ st.usedLineupIds

/-- One result step preserves the invariant. -/
theorem linkStep_inv (D : DateOps) (lineups : List GameLineupRec) (st : LinkState)
    (res : GameResultRec) (h : LinkInv st) : LinkInv (linkStep D lineups st res) := by
  obtain ⟨h1, h2⟩ := h
  unfold linkStep
  cases hf : findLineupForResult D st.usedLineupIds lineups res with
  | some lu =>
      have hnu := findLineupForResult_not_used D st.usedLineupIds lineups res lu hf
      constructor
      · simp only [List.filterMap_append, mkMatchedGame_lineupCommentId, List.filterMap,
          List.nodup_append]
        refine ⟨h1, by simp, ?_⟩
        intro a ha hb
        simp at hb
        subst hb
        exact hnu (h2 _ ha)
      · intro i hi
        simp only [List.filterMap_append, mkMatchedGame_lineupCommentId, List.filterMap,
          List.mem_append] at hi
        rcases hi with hi | hi
        · exact List.mem_append_left _ (h2 _ hi)
        · simp at hi
          subst hi
          simp
  | none =>
      constructor
      · simpa [List.filterMap_append, mkResultOnlyGame_lineupCommentId, List.filterMap] using h1
      · intro i hi
        simp only [List.filterMap_append, mkResultOnlyGame_lineupCommentId,
          List.filterMap, List.append_nil] at hi
        exact h2 _ hi

/-- The whole result loop preserves the invariant. -/
theorem foldl_linkStep_inv (D : DateOps) (lineups : List GameLineupRec)
    (results : List GameResultRec) (st : LinkState) (h : LinkInv st) :
    LinkInv (results.foldl (linkStep D lineups) st) := by
  induction results generalizing st with
  | nil => exact h
  | cons r rs ih => exact ih _ (linkStep_inv D lineups st r h)

/-- The trailing pass appends exactly the references of the unconsumed
lineups, in order, and does not extend the consumed set. -/
theorem lineupOnlyPass_filterMap (lineups : List GameLineupRec) (st : LinkState) :
    (lineupOnlyPass st lineups).games.filterMap CompleteGame.lineupCommentId =
      st.games.filterMap CompleteGame.lineupCommentId ++
        (lineups.filter (fun lu => !(st.usedLineupIds.contains lu.commentId))).map
          GameLineupRec.commentId := by
  induction lineups generalizing st with
  | nil => simp [lineupOnlyPass]
  | cons lu rest ih =>
      unfold lineupOnlyPass at ih ⊢
      simp only [List.foldl_cons]
      by_cases hc : st.usedLineupIds.contains lu.commentId = true
      · rw [show lineupOnlyStep st lu = st from by unfold lineupOnlyStep; rw [if_pos hc]]
        rw [ih st]
        rw [List.filter_cons_of_neg (by simpa using hc)]
      · have hstep : lineupOnlyStep st lu =
            { st with games := st.games ++ [mkLineupOnlyGame st.nextId lu],
                      nextId := st.nextId + 1 } := by
          unfold lineupOnlyStep
          rw [if_neg hc]
        rw [hstep, ih]
        simp only [List.filterMap_append, mkLineupOnlyGame_lineupCommentId, List.filterMap]
        rw [List.filter_cons_of_pos (by simpa using hc)]
        simp [List.append_assoc]

/-- Claim C2: in the CompleteGame list produced by linking, each lineup
(identified by its source comment id, assumed distinct across the input
lineups) is referenced by at most one game: a selected lineup is recorded as
consumed and skipped by all later searches, and only unconsumed lineups
become lineup-only partial games, so the list of referenced lineup ids has
no duplicates. -/
theorem lineup_referenced_at_most_once (D : DateOps) (lineups : List GameLineupRec)
    (results : List GameResultRec)
    (hn : (lineups.map GameLineupRec.commentId).Nodup) :
    ((linkResultsToLineups D lineups results).filterMap
        CompleteGame.lineupCommentId).Nodup := by
  unfold linkResultsToLineups
  have hinv : LinkInv (results.foldl (linkStep D lineups) ⟨[], [], 1⟩) :=
    foldl_linkStep_inv D lineups results _ ⟨by simp, by simp⟩
  set st := results.foldl (linkStep D lineups) ⟨[], [], 1⟩
  rw [lineupOnlyPass_filterMap, List.nodup_append]
  refine ⟨hinv.1, ?_, ?_⟩
  · exact hn.sublist ((List.filter_sublist lineups).map GameLineupRec.commentId)
  · intro a ha hb
    rcases List.mem_map.mp hb with ⟨lu, hmem, heq⟩
    have hnotin : lu.commentId ∉ st.usedLineupIds := by
      simpa using (List.mem_filter.mp hmem).2
    have hin : lu.commentId ∈ st.usedLineupIds := by
      rw [heq]
      exact hinv.2 a ha
    exact hnotin hin

/-- Trivial datetime operations for the C2 witness. -/
def dOpsTriv : DateOps := { parseIso := fun _ => none, fmtDateTime := fun _ => "" }

/-- First lineup of the C2 witness run. -/
def luWitA : GameLineupRec :=
  { commentId := 10, threadId := 1, gameDate := "2025-03-01",
    teamA := "Alpha", teamB := "Beta" }

/-- Second lineup of the C2 witness run, same teams and date. -/
def luWitB : GameLineupRec :=
  { commentId := 11, threadId := 1, gameDate := "2025-03-01",
    teamA := "Alpha", teamB := "Beta" }

/-- First result of the C2 witness run. -/
def resWitA : GameResultRec :=
  { commentId := 20, threadId := 2, gameDate := "2025-03-01",
    teamA := "Alpha", teamB := "Beta", scoreA := some 100, scoreB := some 90 }

/-- Second result of the C2 witness run, matching the same teams. -/
def resWitB : GameResultRec :=
  { commentId := 21, threadId := 2, gameDate := "2025-03-01",
    teamA := "Beta", teamB := "Alpha", scoreA := some 80, scoreB := some 70 }

/-- Claim C2 witness: the consumption theorem applied at a concrete run with
two same-team lineups and two results, discharging the distinctness
hypothesis. -/
theorem lineup_referenced_at_most_once_witness :
    ((linkResultsToLineups dOpsTriv [luWitA, luWitB] [resWitA, resWitB]).filterMap
        CompleteGame.lineupCommentId).Nodup :=
  lineup_referenced_at_most_once dOpsTriv [luWitA, luWitB] [resWitA, resWitB] (by decide)

/-! Section: identity resolution.  Shared data model for
discover-player-ids.py, s6_reconstruction.py and match-s6-karma.py.  The
difflib SequenceMatcher ratio is an external library function and is passed
in as a rational-valued parameter; network fetches (supabase snapshots,
ranked-days history) are inputs.  Python dictionaries and sets are
insertion-ordered association lists and deduplicated lists. -/

/-- Overwrite-or-append assignment on an association list (dict item set). -/
def setAssoc {α : Type} (l : List (String × α)) (k : String) (v : α) : List (String × α) :=
  match l with
  | [] => [(k, v)]
  | (k0, v0) :: rest => if k0 = k then (k0, v) :: rest else (k0, v0) :: setAssoc rest k v

/-- Deduplicating append (Python set add). -/
def addUnique (l : List String) (x : String) : List String :=
  if l.contains x then l else l ++ [x]

/-- Row of the karma_rankings snapshot for one date. -/
structure KarmaEntry where
  userId : String
  username : String
  amount : Int
  rank : Int
deriving DecidableEq, Repr

/-- Roster entry of the games file, with the fields the scripts read. -/
structure RosterPlayer where
  handle : String
  playerId : Option String := none
  ranking : Option Int := none
deriving DecidableEq, Repr

/-- Game row of the games file as read by discover-player-ids.py. -/
structure DiscGame where
  gameDate : String
  rosterA : List RosterPlayer
  rosterB : List RosterPlayer
deriving DecidableEq, Repr

/-- Per-handle profile built by build_player_profiles. -/
structure PlayerProfile where
  dates : List String
  rankings : List (String × Int)
  gameCount : Nat
deriving DecidableEq, Repr

/-- One roster entry folded into the profiles dict (build_player_profiles
body): known handles and players that already carry an id are skipped, the
date list and game count grow, and a truthy ranking is recorded under the
game date. -/
def profileStep (existing : List String) (gameDate : String)
    (profiles : List (String × PlayerProfile)) (p : RosterPlayer) :
    List (String × PlayerProfile) :=
  let handle := lowerStr p.handle
  if existing.contains handle then profiles
  else if pyTruthyStr p.playerId then profiles
  else
    let prof := (dictGet profiles handle).getD { dates := [], rankings := [], gameCount := 0 }
    let prof := { prof with dates := prof.dates ++ [gameDate], gameCount := prof.gameCount + 1 }
    let prof :=
      if pyTruthyInt p.ranking then
        { prof with rankings := setAssoc prof.rankings gameDate (p.ranking.getD 0) }
      else prof
    setAssoc profiles handle prof

/-- build_player_profiles from discover-player-ids.py. -/
def buildPlayerProfiles (existing : List String) (games : List DiscGame) :
    List (String × PlayerProfile) :=
  games.foldl
    (fun acc g =>
      g.rosterB.foldl (profileStep existing g.gameDate)
        (g.rosterA.foldl (profileStep existing g.gameDate) acc))
    []

/-- Evidence payload of a discovery record, one constructor per f-string
shape in the source, carrying exactly the interpolated data. -/
inductive DiscEvidence
  | usernameExact (username : String)
  | usernameFuzzy (handle username : String) (ratioVal : ℚ)
  | rankPatternUnique (dates : Nat)
  | rankPatternBest (dates : Nat) (deviation : Nat)
  | apiDeviation (avg : ℚ)
deriving DecidableEq, Repr

/-- Discovery record of discover-player-ids.py.  The uncertain flag and the
candidate count model the presence of the optional keys that single-date
rank discovery attaches elsewhere; no strategy of this script ever sets
them, which is what the fields record. -/
structure Discovery where
  userId : String
  confidence : String
  method : String
  evidence : DiscEvidence
  uncertain : Bool := false
  candidateCount : Option Nat := none
deriving DecidableEq, Repr

/-- Username index of strategy_username_match: lowercased stripped username
mapped to the set of user ids carrying it across all fetched dates. -/
def buildUsernameIndex (karmaByDate : List (String × List KarmaEntry)) :
    List (String × List String) :=
  karmaByDate.foldl
    (fun idx p =>
      p.2.foldl
        (fun idx e =>
          let username := pyStripStr (lowerStr e.username)
          if username ≠ "" then
            setAssoc idx username (addUnique ((dictGet idx username).getD []) e.userId)
          else idx)
        idx)
    []

/-- Fuzzy scan one handle against every unambiguous username: usernames with
more than one id are skipped entirely, and the best ratio strictly above
0.85 and strictly above the current best wins. -/
def bestFuzzyStep ( ratio : String → String → ℚ) (handleLower : String)
    (best : Option (String × String × ℚ)) (p : String × List String) :
    Option (String × String × ℚ) :=
  if p.2.length > 1 then best
  else
    let r := ratio handleLower p.1
    let bestRatio : ℚ := match best with | none => 0 | some b => b.2.2
    if r > mkRat 85 100 ∧ r > bestRatio then some (p.1, p.2.headD "", r) else best

def bestFuzzy ( ratio : String → String → ℚ) (idx : List (String × List String))
    (handleLower : String) : Option (String × String × ℚ) :=
  idx.foldl (bestFuzzyStep ratio handleLower) none

/-- Per-handle body of strategy_username_match: exact unambiguous lookup at
high confidence, otherwise the fuzzy scan, accepted at medium confidence
above 0.90 and low otherwise. -/
def usernameMatchOne ( ratio : String → String → ℚ) (idx : List (String × List String))
    (handle : String) : Option Discovery :=
  let handleLower := lowerStr handle
  let exact : Option Discovery :=
    match dictGet idx handleLower with
    | some ids =>
        if ids.length = 1 then
          some { userId := ids.headD "", confidence := "high", method := "username_exact",
                 evidence := DiscEvidence.usernameExact handleLower }
        else none
    | none => none
  match exact with
  | some d => some d
  | none =>
      match bestFuzzy ratio idx handleLower with
      | some (username, uid, r) =>
          some { userId := uid,
                 confidence := if r > mkRat 9 10 then "medium" else "low",
                 method := "username_fuzzy",
                 evidence := DiscEvidence.usernameFuzzy handleLower username r }
      | none => none

/-- strategy_username_match over all unknown-player profiles. -/
def strategyUsernameMatch ( ratio : String → String → ℚ) (existing : List String)
    (karmaByDate : List (String × List KarmaEntry)) (games : List DiscGame) :
    List (String × Discovery) :=
  let idx := buildUsernameIndex karmaByDate
  (buildPlayerProfiles existing games).foldl
    (fun acc p =>
      match usernameMatchOne ratio idx p.1 with
      | some d => setAssoc acc p.1 d
      | none => acc)
    []

/-- Per-date candidate set of strategy_rank_pattern: user ids whose rank
lies within 30 of the expected rank. -/
def rankCandidatesForDate (entries : List KarmaEntry) (expected : Int) : List String :=
  entries.foldl
    (fun acc e => if (e.rank - expected).natAbs ≤ 30 then addUnique acc e.userId else acc)
    []

/-- Candidate sets over the expected-rank dates that have snapshot data;
dates without data are skipped, as in the source. -/
def dateCandidateSets (karmaByDate : List (String × List KarmaEntry))
    (rankings : List (String × Int)) : List (String × List String) :=
  rankings.foldl
    (fun acc p =>
      match dictGet karmaByDate p.1 with
      | none => acc
      | some entries => acc ++ [(p.1, rankCandidatesForDate entries p.2)])
    []

/-- Intersection of all per-date candidate sets. -/
def commonCandidates (dcs : List (String × List String)) : List String :=
  match dcs with
  | [] => []
  | (_, first) :: rest => first.filter (fun u => rest.all (fun p => p.2.contains u))

/-- Total absolute rank deviation of a candidate across the expected dates,
counting the first snapshot entry of the candidate on each date. -/
def totalDeviation (karmaByDate : List (String × List KarmaEntry))
    (rankings : List (String × Int)) (candidate : String) : Nat :=
  rankings.foldl
    (fun acc p =>
      match ((dictGet karmaByDate p.1).getD []).find? (fun e => e.userId = candidate) with
      | some e => acc + (e.rank - p.2).natAbs
      | none => acc)
    0

/-- One candidate of the deviation scan: the first candidate always becomes
the best, later ones only on strict improvement. -/
def bestDevStep (karmaByDate : List (String × List KarmaEntry))
    (rankings : List (String × Int)) (best : Option (String × Nat)) (c : String) :
    Option (String × Nat) :=
  match best with
  | none => some (c, totalDeviation karmaByDate rankings c)
  | some b =>
      if totalDeviation karmaByDate rankings c < b.2 then
        some (c, totalDeviation karmaByDate rankings c)
      else best

/-- Strictly-improving scan for the candidate of least total deviation. -/
def bestByDeviation (karmaByDate : List (String × List KarmaEntry))
    (rankings : List (String × Int)) (cands : List String) : Option (String × Nat) :=
  cands.foldl (bestDevStep karmaByDate rankings) none

/-- Per-handle body of strategy_rank_pattern. -/
def rankPatternOne (karmaByDate : List (String × List KarmaEntry))
    (rankings : List (String × Int)) : Option Discovery :=
  if rankings.length < 2 then none
  else
    let dcs := dateCandidateSets karmaByDate rankings
    if dcs.isEmpty then none
    else
      let common := commonCandidates dcs
      if common.length = 1 then
        some { userId := common.headD "", confidence := "high", method := "rank_pattern",
               evidence := DiscEvidence.rankPatternUnique rankings.length }
      else if common.length > 1 then
        match bestByDeviation karmaByDate rankings common with
        | some (c, dev) =>
            if c ≠ "" then
              some { userId := c, confidence := "medium", method := "rank_pattern",
                     evidence := DiscEvidence.rankPatternBest rankings.length dev }
            else none
        | none => none
      else none

/-- strategy_rank_pattern over all unknown-player profiles; the guard against
already-discovered handles in the source tests the local dict under
construction, whose keys are the distinct profile handles, so it never
fires. -/
def strategyRankPattern (existing : List String)
    (karmaByDate : List (String × List KarmaEntry)) (games : List DiscGame) :
    List (String × Discovery) :=
  (buildPlayerProfiles existing games).foldl
    (fun acc p =>
      match rankPatternOne karmaByDate p.2.rankings with
      | some d => setAssoc acc p.1 d
      | none => acc)
    []

/-- Row of the ranked-days history fetched per user id. -/
structure RankedDay where
  day : String
  karma : Int
  rank : Int
deriving DecidableEq, Repr

/-- Day-to-rank dict comprehension over fetched history (later rows win). -/
def buildUserRanks (days : List RankedDay) : List (String × Int) :=
  days.foldl (fun acc d => setAssoc acc d.day d.rank) []

/-- Sum of rank deviations and number of matched dates of one candidate. -/
def apiScoreFor (expected : List (String × Int)) (userRanks : List (String × Int)) :
    Nat × Nat :=
  expected.foldl
    (fun (acc : Nat × Nat) p =>
      match dictGet userRanks p.1 with
      | some r => (acc.1 + (r - p.2).natAbs, acc.2 + 1)
      | none => acc)
    (0, 0)

/-- One candidate of the ranked-days verification loop: empty history is
skipped; a candidate with matches and an average deviation below 30 replaces
the running best when strictly better. -/
def apiBestStep ( fetch : String → List RankedDay) (expected : List (String × Int))
    (best : Option (String × ℚ)) (uid : String) : Option (String × ℚ) :=
  let days := fetch uid
  if days.isEmpty then best
  else
    let sm := apiScoreFor expected (buildUserRanks days)
    if sm.2 > 0 ∧ mkRat sm.1 sm.2 < 30 then
      let avg : ℚ := mkRat sm.1 sm.2
      match best with
      | none => some (uid, avg)
      | some b => if avg < b.2 then some (uid, avg) else best
    else best

/-- Per-handle body of strategy_ranked_days_api: the candidate list capped to
five, high confidence below average deviation 10, else medium. -/
def apiDiscoverOne ( fetch : String → List RankedDay) (expected : List (String × Int))
    (userIds : List String) : Option Discovery :=
  match (userIds.take 5).foldl (apiBestStep fetch expected) none with
  | some (uid, avg) =>
      if uid ≠ "" then
        some { userId := uid, confidence := if avg < 10 then "high" else "medium",
               method := "ranked_days_api", evidence := DiscEvidence.apiDeviation avg }
      else none
  | none => none

/-- strategy_ranked_days_api over the handed-in candidate map. -/
def strategyRankedDaysApi ( fetch : String → List RankedDay) (existing : List String)
    (games : List DiscGame) (candidates : List (String × List String)) :
    List (String × Discovery) :=
  candidates.foldl
    (fun acc p =>
      if p.2.isEmpty then acc
      else
        match dictGet (buildPlayerProfiles existing games) p.1 with
        | none => acc
        | some prof =>
            if prof.rankings.isEmpty then acc
            else
              match apiDiscoverOne fetch prof.rankings p.2 with
              | some d => setAssoc acc p.1 d
              | none => acc)
    []

/-- Candidate ids within the widened tolerance of 50 over all expected-rank
dates with snapshot data (run_all_strategies lines 437-442). -/
def candidatesWithin50 (karmaByDate : List (String × List KarmaEntry))
    (rankings : List (String × Int)) : List String :=
  rankings.foldl
    (fun acc p =>
      match dictGet karmaByDate p.1 with
      | none => acc
      | some entries =>
          entries.foldl
            (fun acc e => if (e.rank - p.2).natAbs ≤ 50 then addUnique acc e.userId else acc)
            acc)
    []

/-- Remaining candidate map handed to the API strategy: profiles not yet
discovered and not among the existing mappings, with a nonempty candidate
set. -/
def remainingCandidates (existing : List String)
    (karmaByDate : List (String × List KarmaEntry)) (games : List DiscGame)
    (discovered : List (String × Discovery)) : List (String × List String) :=
  (buildPlayerProfiles existing games).foldl
    (fun acc p =>
      if (dictGet discovered p.1).isSome then acc
      else if existing.contains p.1 then acc
      else
        let cands := candidatesWithin50 karmaByDate p.2.rankings
        if cands.isEmpty then acc else setAssoc acc p.1 cands)
    []

/-- Merge of a later strategy into the discoveries dict: an entry is added
only when the handle is not yet present (run_all_strategies lines 423-425
and 449-451). -/
def mergeKeepFirst (base extra : List (String × Discovery)) : List (String × Discovery) :=
  extra.foldl (fun acc p => if (dictGet acc p.1).isSome then acc else acc ++ [p]) base

/-- run_all_strategies: username matching first, then rank patterns, then
ranked-days verification of the remaining candidates, each merged without
replacing existing records. -/
def runAllStrategies ( ratio : String → String → ℚ) ( fetch : String → List RankedDay)
    (existing : List String) (karmaByDate : List (String × List KarmaEntry))
    (games : List DiscGame) : List (String × Discovery) :=
  let d1 := strategyUsernameMatch ratio existing karmaByDate games
  let d2 := mergeKeepFirst d1 (strategyRankPattern existing karmaByDate games)
  mergeKeepFirst d2
    (strategyRankedDaysApi fetch existing games
      (remainingCandidates existing karmaByDate games d2))

/-! Section: S6Reconstructor (s6_reconstruction.py) and KarmaMatcher
(match-s6-karma.py).  The karma cache maps a date string to a dict from
user id to karma data; players carry the keys the phases read and write,
with absent optional keys modelled by the default values. -/

/-- Value of the per-date karma cache for one user id. -/
structure KarmaData where
  amount : Int
  rank : Int
  username : String
deriving DecidableEq, Repr

/-- Roster entry as mutated by the s6 phases; matchMethod holds the
match_method (or match_type) key, and the three flags model the optional
match_uncertain, match_verified and match_rejected keys. -/
structure S6Player where
  handle : String
  playerId : Option String := none
  ranking : Option Int := none
  karmaAmount : Option Int := none
  karmaRank : Option Int := none
  matchMethod : String := ""
  matchUncertain : Bool := false
  matchVerified : Bool := false
  matchRejected : Bool := false
  candidateCount : Option Nat := none
deriving DecidableEq, Repr

/-- discover_by_username from s6_reconstruction.py: exact unambiguous lookup
at high confidence, else the fuzzy scan with the three-tier confidence (high
above 0.95, medium above 0.90, low otherwise). -/
def discoverByUsername ( ratio : String → String → ℚ)
    (usernameToId : List (String × List String)) (handle : String) :
    Option (String × String) :=
  let handleLower := lowerStr handle
  let exact : Option (String × String) :=
    match dictGet usernameToId handleLower with
    | some ids => if ids.length = 1 then some (ids.headD "", "high") else none
    | none => none
  match exact with
  | some r => some r
  | none =>
      match bestFuzzy ratio usernameToId handleLower with
      | some (_, uid, r) =>
          if uid ≠ "" then
            some (uid,
              if r > mkRat 19 20 then "high"
              else if r > mkRat 9 10 then "medium" else "low")
          else none
      | none => none

/-- Candidate row of the rank-proximity discovery. -/
structure RankCandidate where
  userId : String
  data : KarmaData
  rankDiff : Nat
deriving DecidableEq, Repr

/-- Result of the rank-proximity discovery; uncertain and candidates model
the optional underscore keys merged into the returned karma payload. -/
structure RankHit where
  userId : String
  data : KarmaData
  uncertain : Bool := false
  candidates : Option Nat := none
deriving DecidableEq, Repr

/-- One snapshot entry folded into the candidate list: excluded ids are
skipped, entries within the rank tolerance are appended with their rank
difference. -/
def rankProxStep (weeklyRanking : Int) (rankTolerance : Nat) (excludedIds : List String)
    (acc : List RankCandidate) (p : String × KarmaData) : List RankCandidate :=
  if excludedIds.contains p.1 then acc
  else if (p.2.rank - weeklyRanking).natAbs ≤ rankTolerance then
    acc ++ [{ userId := p.1, data := p.2, rankDiff := (p.2.rank - weeklyRanking).natAbs }]
  else acc

/-- Candidate collection shared by both discover_by_rank variants: entries
of the date snapshot outside the excluded set whose rank lies within the
tolerance, tagged with the rank difference. -/
def rankProximityCandidates (karma : List (String × KarmaData)) (weeklyRanking : Int)
    (rankTolerance : Nat) (excludedIds : List String) : List RankCandidate :=
  karma.foldl (rankProxStep weeklyRanking rankTolerance excludedIds) []

/-- Stable insertion of a candidate after all candidates of smaller or equal
rank difference. -/
def insertByDiff (x : RankCandidate) : List RankCandidate → List RankCandidate
  | [] => [x]
  | y :: ys => if y.rankDiff ≤ x.rankDiff then y :: insertByDiff x ys else x :: y :: ys

/-- Stable ascending sort by rank difference, modelling the in-place
list.sort keyed on the rank difference. -/
def sortByDiff (l : List RankCandidate) : List RankCandidate :=
  l.foldl (fun acc x => insertByDiff x acc) []

/-- Selection core shared verbatim by both discover_by_rank variants (they
differ only in the username-preference predicate): sort candidates by rank
proximity, prefer a username hit, accept a single candidate outright, and
otherwise return the closest candidate flagged uncertain with the candidate
count. -/
def pickRankHit (pred : RankCandidate → Bool) : List RankCandidate → Option RankHit
  | [] => none
  | c0 :: rest =>
      match (sortByDiff (c0 :: rest)).find? pred with
      | some c => some { userId := c.userId, data := c.data }
      | none =>
          if (c0 :: rest).length = 1 then
            some { userId := c0.userId, data := c0.data }
          else
            match sortByDiff (c0 :: rest) with
            | best :: _ =>
                some { userId := best.userId, data := best.data,
                       uncertain := true, candidates := some (c0 :: rest).length }
            | [] => none

/-- discover_by_rank from s6_reconstruction.py: the username preference is
exact lowercase equality. -/
def discoverByRank (karmaCache : List (String × List (String × KarmaData)))
    (rankTolerance : Nat) (handle : String) (weeklyRanking : Int) (gameDate : String)
    (excludedIds : List String) : Option RankHit :=
  pickRankHit (fun c => lowerStr c.data.username = lowerStr handle)
    (rankProximityCandidates ((dictGet karmaCache gameDate).getD []) weeklyRanking
      rankTolerance excludedIds)

/-- discover_by_rank from match-s6-karma.py: the username preference also
accepts substring containment in either direction. -/
def discoverByRankKM (karmaCache : List (String × List (String × KarmaData)))
    (rankTolerance : Nat) (handle : String) (weeklyRanking : Int) (gameDate : String)
    (knownIds : List String) : Option RankHit :=
  pickRankHit (fun c =>
      lowerStr c.data.username = lowerStr handle ||
      strIn (lowerStr handle) (lowerStr c.data.username) ||
      strIn (lowerStr c.data.username) (lowerStr handle))
    (rankProximityCandidates ((dictGet karmaCache gameDate).getD []) weeklyRanking
      rankTolerance knownIds)

/-- Discovery record kept by the s6 reconstructor. -/
structure S6Discovery where
  userId : String
  confidence : String
  method : String
deriving DecidableEq, Repr

/-- State threaded through phase 3: the discovered-handle dict and the
per-date matched-id sets. -/
structure Phase3State where
  discovered : List (String × S6Discovery)
  matchedPerDate : List (String × List String)
deriving DecidableEq, Repr

/-- Insertion into a per-date id set of the matched-per-date dict. -/
def addToSet (m : List (String × List String)) (k v : String) :
    List (String × List String) :=
  setAssoc m k (addUnique ((dictGet m k).getD []) v)

/-- Phase-3 body for one roster entry (process_phase3_rank lines 378-420):
skip players that already carry an id or have no truthy ranking; reuse an
already-discovered handle as previously_discovered when the id has karma on
the date, recording the id in the date exclusion set; otherwise run the
rank-proximity discovery against the date exclusion set, record the
assignment, cache the discovery at low confidence when uncertain else
medium, and extend the exclusion set. -/
def phase3Player (karmaCache : List (String × List (String × KarmaData)))
    (rankTolerance : Nat) (gameDate : String) (st : Phase3State) (p : S6Player) :
    S6Player × Phase3State :=
  if pyTruthyStr p.playerId then (p, st)
  else if ¬ pyTruthyInt p.ranking then (p, st)
  else
    let handleLower := lowerStr p.handle
    match dictGet st.discovered handleLower with
    | some d =>
        match dictGet ((dictGet karmaCache gameDate).getD []) d.userId with
        | some karma =>
            ({ p with playerId := some d.userId, karmaAmount := some karma.amount,
                      karmaRank := some karma.rank, matchMethod := "previously_discovered" },
             { st with matchedPerDate := addToSet st.matchedPerDate gameDate d.userId })
        | none => (p, st)
    | none =>
        let excluded := (dictGet st.matchedPerDate gameDate).getD []
        match discoverByRank karmaCache rankTolerance p.handle (p.ranking.getD 0) gameDate
            excluded with
        | some hit =>
            ({ p with playerId := some hit.userId, karmaAmount := some hit.data.amount,
                      karmaRank := some hit.data.rank, matchMethod := "rank_discovery",
                      matchUncertain := hit.uncertain },
             { discovered := setAssoc st.discovered handleLower
                 { userId := hit.userId,
                   confidence := if hit.uncertain then "low" else "medium",
                   method := "rank" },
               matchedPerDate := addToSet st.matchedPerDate gameDate hit.userId })
        | none => (p, st)

/-- Phase 3 threads one state through the games and both rosters in
iteration order; the run is modelled by the flattened sequence of
date-and-player items. -/
def phase3FlatStep (karmaCache : List (String × List (String × KarmaData)))
    (rankTolerance : Nat) (acc : List (String × S6Player) × Phase3State)
    (it : String × S6Player) : List (String × S6Player) × Phase3State :=
  ((acc.1 ++ [(it.1, (phase3Player karmaCache rankTolerance it.1 acc.2 it.2).1)]),
   (phase3Player karmaCache rankTolerance it.1 acc.2 it.2).2)

def processPhase3Flat (karmaCache : List (String × List (String × KarmaData)))
    (rankTolerance : Nat) (st : Phase3State) (items : List (String × S6Player)) :
    List (String × S6Player) × Phase3State :=
  items.foldl (phase3FlatStep karmaCache rankTolerance) ([], st)

/-- Phase-4 verification body of s6_reconstruction.py (lines 433-447): for
an uncertain player with a truthy id, look up the game date in the fetched
history; within a difference of 5 the record is flagged verified, and on a
mismatch nothing at all is written. -/
def phase4VerifyPlayer ( fetch : String → List RankedDay) (gameDate : String)
    (p : S6Player) : S6Player :=
  if ¬ p.matchUncertain then p
  else if ¬ pyTruthyStr p.playerId then p
  else
    match (fetch (p.playerId.getD "")).find? (fun d => d.day = gameDate) with
    | none => p
    | some d =>
        if (d.rank - p.karmaRank.getD 0).natAbs ≤ 5 then { p with matchVerified := true }
        else p

/-- Verification body of match-s6-karma.py (lines 420-442): identical search,
but a mismatch beyond 5 flags the record rejected while keeping it. -/
def verifyPlayerKM ( fetch : String → List RankedDay) (gameDate : String)
    (p : S6Player) : S6Player :=
  if ¬ p.matchUncertain then p
  else if ¬ pyTruthyStr p.playerId then p
  else
    match (fetch (p.playerId.getD "")).find? (fun d => d.day = gameDate) with
    | none => p
    | some d =>
        if (d.rank - p.karmaRank.getD 0).natAbs ≤ 5 then { p with matchVerified := true }
        else { p with matchRejected := true }

/-- History fetch of the C6 inputs: the resolved id has rank 40 recorded on
the game date. -/
def fetchMismatch : String → List RankedDay := fun uid =>
  if uid = "u1" then [{ day := "2025-03-01", karma := 500, rank := 40 }] else []

/-- Uncertain rank-discovered player of the C6 inputs, resolved with
snapshot rank 10. -/
def playerUncertain : S6Player :=
  { handle := "alice", playerId := some "u1", ranking := some 12,
    karmaRank := some 10, matchMethod := "rank_discovery", matchUncertain := true }

/-- Claim C6 (counterexample): in process_phase4_verify the recorded rank 40
differs from the snapshot rank 10 by more than 5, yet the record is returned
unchanged: no rejected flag is ever written by this implementation, against
the claim that a mismatch is flagged rejected. -/
theorem phase4_mismatch_unflagged_counterexample :
    phase4VerifyPlayer fetchMismatch "2025-03-01" playerUncertain = playerUncertain ∧
    (phase4VerifyPlayer fetchMismatch "2025-03-01" playerUncertain).matchRejected = false ∧
    5 < ((40 : Int) - 10).natAbs := by
  refine ⟨?_, ?_, ?_⟩ <;> decide

/-- Claim C6 (amended): for every uncertain resolved record whose fetched
history contains the game date, the karma-matcher verification flags the
record verified within a rank difference of 5 and rejected beyond it, always
keeping the record; the s6-reconstruction phase-4 verification flags only
the verified case and leaves a mismatch unchanged, writing no rejected
flag. -/
theorem rank_verification_flags ( fetch : String → List RankedDay) (gameDate : String)
    (p : S6Player) (d : RankedDay)
    (hu : p.matchUncertain = true) (hid : pyTruthyStr p.playerId = true)
    (hfind : (fetch (p.playerId.getD "")).find? (fun x => x.day = gameDate) = some d) :
    verifyPlayerKM fetch gameDate p =
      (if (d.rank - p.karmaRank.getD 0).natAbs ≤ 5 then { p with matchVerified := true }
       else { p with matchRejected := true }) ∧
    phase4VerifyPlayer fetch gameDate p =
      (if (d.rank - p.karmaRank.getD 0).natAbs ≤ 5 then { p with matchVerified := true }
       else p) ∧
    (verifyPlayerKM fetch gameDate p).playerId = p.playerId ∧
    (verifyPlayerKM fetch gameDate p).handle = p.handle := by
  have hkm : verifyPlayerKM fetch gameDate p =
      (if (d.rank - p.karmaRank.getD 0).natAbs ≤ 5 then { p with matchVerified := true }
       else { p with matchRejected := true }) := by
    unfold verifyPlayerKM
    rw [hu, hid, hfind]
    simp
  refine ⟨hkm, ?_, ?_, ?_⟩
  · unfold phase4VerifyPlayer
    rw [hu, hid, hfind]
    simp
  · rw [hkm]; split_ifs <;> rfl
  · rw [hkm]; split_ifs <;> rfl

/-- Claim C6 witness: the verification theorem applied at the concrete
mismatching input, where the karma matcher flags rejected and the s6 phase
leaves the record untouched. -/
theorem rank_verification_flags_witness :
    verifyPlayerKM fetchMismatch "2025-03-01" playerUncertain =
      { playerUncertain with matchRejected := true } ∧
    phase4VerifyPlayer fetchMismatch "2025-03-01" playerUncertain = playerUncertain := by
  have h := rank_verification_flags fetchMismatch "2025-03-01" playerUncertain
    { day := "2025-03-01", karma := 500, rank := 40 } rfl (by decide) (by decide)
  refine ⟨?_, ?_⟩
  · rw [h.1]; decide
  · rw [h.2.1]; decide

/-- Folding candidate collection preserves exclusion freedom. -/
theorem rankProxFold_not_excluded (wr : Int) (tol : Nat) (excl : List String) :
    ∀ (karma : List (String × KarmaData)) (acc : List RankCandidate),
      (∀ x ∈ acc, x.userId ∉ excl) →
      ∀ x ∈ karma.foldl (rankProxStep wr tol excl) acc, x.userId ∉ excl := by
  intro karma
  induction karma with
  | nil => intro acc hacc x hx; exact hacc x hx
  | cons p rest ih =>
      intro acc hacc x hx
      simp only [List.foldl_cons] at hx
      refine ih _ ?_ x hx
      intro y hy
      unfold rankProxStep at hy
      by_cases h1 : excl.contains p.1 = true
      · rw [if_pos h1] at hy; exact hacc y hy
      · rw [if_neg h1] at hy
        by_cases h2 : (p.2.rank - wr).natAbs ≤ tol
        · rw [if_pos h2] at hy
          rcases List.mem_append.mp hy with hy | hy
          · exact hacc y hy
          · simp at hy
            subst hy
            simpa using h1
        · rw [if_neg h2] at hy; exact hacc y hy

/-- Ids in the candidate list are never from the excluded set. -/
theorem rankProximityCandidates_not_excluded (karma : List (String × KarmaData))
    (wr : Int) (tol : Nat) (excl : List String) (c : RankCandidate)
    (h : c ∈ rankProximityCandidates karma wr tol excl) : c.userId ∉ excl :=
  rankProxFold_not_excluded wr tol excl karma [] (by simp) c h

/-- Membership through stable insertion. -/
theorem mem_insertByDiff (x y : RankCandidate) (l : List RankCandidate) :
    y ∈ insertByDiff x l ↔ y = x ∨ y ∈ l := by
  induction l with
  | nil => simp [insertByDiff]
  | cons z zs ih =>
      unfold insertByDiff
      split_ifs with hz
      · simp only [List.mem_cons, ih]
        tauto
      · simp only [List.mem_cons]

/-- Membership through the stable sort. -/
theorem mem_sortByDiff (l : List RankCandidate) (y : RankCandidate) :
    y ∈ sortByDiff l ↔ y ∈ l := by
  suffices haux : ∀ (l acc : List RankCandidate),
      ∀ y, y ∈ l.foldl (fun acc x => insertByDiff x acc) acc ↔ y ∈ acc ∨ y ∈ l by
    rw [sortByDiff, haux l [] y]
    simp
  intro l
  induction l with
  | nil => intro acc y; simp
  | cons z zs ih =>
      intro acc y
      simp only [List.foldl_cons, ih, mem_insertByDiff, List.mem_cons]
      tauto

/-- The selected hit of the shared selection core carries the user id of one
of the candidates. -/
theorem pickRankHit_mem (pred : RankCandidate → Bool) (cands : List RankCandidate)
    (hit : RankHit) (h : pickRankHit pred cands = some hit) :
    ∃ c ∈ cands, hit.userId = c.userId := by
  cases hc0 : cands with
  | nil => rw [hc0] at h; exact absurd h (by simp [pickRankHit])
  | cons c0 rest =>
      rw [hc0] at h
      simp only [pickRankHit] at h
      cases hf : (sortByDiff (c0 :: rest)).find? pred with
      | some c =>
          rw [hf] at h
          refine ⟨c, ?_, ?_⟩
          · exact (mem_sortByDiff _ _).mp (List.mem_of_find?_eq_some hf)
          · cases h; rfl
      | none =>
          rw [hf] at h
          by_cases hl : (c0 :: rest).length = 1
          · rw [if_pos hl] at h
            refine ⟨c0, by simp, ?_⟩
            cases h; rfl
          · rw [if_neg hl] at h
            cases hms : sortByDiff (c0 :: rest) with
            | nil =>
                exfalso
                have hmem : c0 ∈ sortByDiff (c0 :: rest) :=
                  (mem_sortByDiff _ _).mpr (by simp)
                rw [hms] at hmem
                simp at hmem
            | cons best tail =>
                rw [hms] at h
                refine ⟨best, ?_, ?_⟩
                · have hmem : best ∈ sortByDiff (c0 :: rest) := by
                    rw [hms]; simp
                  exact (mem_sortByDiff _ _).mp hmem
                · cases h; rfl

/-- Unfolding of dict lookup over a cons cell. -/
theorem dictGet_cons {α : Type} (k : String) (v : α) (rest : List (String × α))
    (h : String) : dictGet ((k, v) :: rest) h = if k = h then some v else dictGet rest h := by
  by_cases hk : k = h <;> simp [dictGet, List.find?, hk]

/-- Assignment then lookup at the same key. -/
theorem dictGet_setAssoc_self {α : Type} (l : List (String × α)) (k : String) (v : α) :
    dictGet (setAssoc l k v) k = some v := by
  induction l with
  | nil => simp [setAssoc, dictGet, List.find?]
  | cons p rest ih =>
      obtain ⟨k0, v0⟩ := p
      unfold setAssoc
      by_cases hk : k0 = k
      · rw [if_pos hk, dictGet_cons, if_pos hk]
      · rw [if_neg hk, dictGet_cons, if_neg hk]
        exact ih

/-- Assignment then lookup at a different key. -/
theorem dictGet_setAssoc_ne {α : Type} (l : List (String × α)) (k k' : String) (v : α)
    (hne : k' ≠ k) : dictGet (setAssoc l k v) k' = dictGet l k' := by
  induction l with
  | nil =>
      show dictGet [(k, v)] k' = dictGet [] k'
      rw [dictGet_cons, if_neg (fun hh => hne hh.symm)]
  | cons p rest ih =>
      obtain ⟨k0, v0⟩ := p
      unfold setAssoc
      by_cases hk : k0 = k
      · rw [if_pos hk, dictGet_cons, dictGet_cons]
        subst hk
        rw [if_neg (fun hh => hne hh.symm), if_neg (fun hh => hne hh.symm)]
      · rw [if_neg hk, dictGet_cons, dictGet_cons]
        by_cases hk' : k0 = k'
        · rw [if_pos hk', if_pos hk']
        · rw [if_neg hk', if_neg hk']
          exact ih

/-- Membership is preserved by the deduplicating append. -/
theorem mem_addUnique_of_mem {l : List String} {x : String} (v : String) (h : x ∈ l) :
    x ∈ addUnique l v := by
  unfold addUnique
  split_ifs <;> simp [h]

/-- The appended element is in the deduplicating append. -/
theorem mem_addUnique_self (l : List String) (v : String) : v ∈ addUnique l v := by
  unfold addUnique
  split_ifs with hc
  · simpa using hc
  · simp

/-- The rank-discovery reference of one roster entry: its assigned id when
the entry was matched by rank discovery. -/
def rankIdOf (p : S6Player) : Option String :=
  if p.matchMethod = "rank_discovery" then p.playerId else none

/-- Ids assigned by rank discovery to the entries of one game date. -/
def rankIdsOn (d : String) (items : List (String × S6Player)) : List String :=
  (items.filter (fun it => it.1 = d)).filterMap (fun it => rankIdOf it.2)

/-- The per-date exclusion set held in the phase-3 state. -/
def excOf (st : Phase3State) (d : String) : List String :=
  (dictGet st.matchedPerDate d).getD []

/-- Invariant of phase 3: rank-discovery ids per date are distinct and all
recorded in that date's exclusion set. -/
def Phase3Inv (out : List (String × S6Player)) (st : Phase3State) : Prop :=
  ∀ d, (rankIdsOn d out).Nodup ∧ ∀ i ∈ rankIdsOn d out, i ∈ excOf st d

/-- Per-date ids after appending one processed entry. -/
theorem rankIdsOn_append_one (d d₀ : String) (out : List (String × S6Player))
    (q : S6Player) :
    rankIdsOn d (out ++ [(d₀, q)]) =
      rankIdsOn d out ++ (if d₀ = d then (rankIdOf q).toList else []) := by
  unfold rankIdsOn
  rw [List.filter_append, List.filterMap_append]
  by_cases h : d₀ = d
  · cases hq : rankIdOf q <;> simp [h, hq, List.filterMap]
  · simp [h]

/-- Appending an entry without a rank-discovery reference preserves the
invariant under any growth of the exclusion sets. -/
theorem Phase3Inv_append_none (out : List (String × S6Player)) (st st' : Phase3State)
    (d₀ : String) (q : S6Player) (hq : rankIdOf q = none)
    (hmono : ∀ d, ∀ i ∈ excOf st d, i ∈ excOf st' d)
    (hinv : Phase3Inv out st) : Phase3Inv (out ++ [(d₀, q)]) st' := by
  intro d
  have hsame : rankIdsOn d (out ++ [(d₀, q)]) = rankIdsOn d out := by
    rw [rankIdsOn_append_one]
    split_ifs <;> simp [hq]
  rw [hsame]
  exact ⟨(hinv d).1, fun i hi => hmono d i ((hinv d).2 i hi)⟩

/-- Appending an entry carrying a fresh rank-discovery id preserves the
invariant when the id enters the exclusion set of its date. -/
theorem Phase3Inv_append_new (out : List (String × S6Player)) (st st' : Phase3State)
    (d₀ : String) (q : S6Player) (uid : String) (hq : rankIdOf q = some uid)
    (hfresh : uid ∉ excOf st d₀)
    (hd0 : ∀ i, (i ∈ excOf st d₀ ∨ i = uid) → i ∈ excOf st' d₀)
    (hne : ∀ d, d ≠ d₀ → excOf st' d = excOf st d)
    (hinv : Phase3Inv out st) : Phase3Inv (out ++ [(d₀, q)]) st' := by
  intro d
  rw [rankIdsOn_append_one]
  by_cases hdd : d₀ = d
  · subst hdd
    rw [if_pos rfl, hq]
    constructor
    · rw [List.nodup_append]
      refine ⟨(hinv d₀).1, by simp, ?_⟩
      intro a ha hb
      simp at hb
      subst hb
      exact hfresh ((hinv d₀).2 a ha)
    · intro i hi
      rcases List.mem_append.mp hi with hi | hi
      · exact hd0 i (Or.inl ((hinv d₀).2 i hi))
      · simp at hi
        subst hi
        exact hd0 i (Or.inr rfl)
  · rw [if_neg hdd]
    simp only [List.append_nil]
    rw [hne d (fun hh => hdd hh.symm)]
    exact hinv d

/-- A discovered hit never carries an excluded id. -/
theorem discoverByRank_not_excluded (karmaCache : List (String × List (String × KarmaData)))
    (tol : Nat) (handle : String) (wr : Int) (gameDate : String) (excl : List String)
    (hit : RankHit) (h : discoverByRank karmaCache tol handle wr gameDate excl = some hit) :
    hit.userId ∉ excl := by
  unfold discoverByRank at h
  obtain ⟨c, hc, he⟩ := pickRankHit_mem _ _ _ h
  rw [he]
  exact rankProximityCandidates_not_excluded _ _ _ _ _ hc

/-- Same statement for the karma-matcher variant. -/
theorem discoverByRankKM_not_known (karmaCache : List (String × List (String × KarmaData)))
    (tol : Nat) (handle : String) (wr : Int) (gameDate : String) (known : List String)
    (hit : RankHit) (h : discoverByRankKM karmaCache tol handle wr gameDate known = some hit) :
    hit.userId ∉ known := by
  unfold discoverByRankKM at h
  obtain ⟨c, hc, he⟩ := pickRankHit_mem _ _ _ h
  rw [he]
  exact rankProximityCandidates_not_excluded _ _ _ _ _ hc

/-- Branch equation: a player already carrying an id is skipped. -/
theorem phase3Player_skip_id (karmaCache : List (String × List (String × KarmaData)))
    (tol : Nat) (d₀ : String) (st : Phase3State) (p : S6Player)
    (h1 : pyTruthyStr p.playerId = true) :
    phase3Player karmaCache tol d₀ st p = (p, st) := by
  simp [phase3Player, h1]

/-- Branch equation: a player without a truthy ranking is skipped. -/
theorem phase3Player_skip_rank (karmaCache : List (String × List (String × KarmaData)))
    (tol : Nat) (d₀ : String) (st : Phase3State) (p : S6Player)
    (h1 : pyTruthyStr p.playerId = false) (h2 : pyTruthyInt p.ranking = false) :
    phase3Player karmaCache tol d₀ st p = (p, st) := by
  simp [phase3Player, h1, h2]

/-- Branch equation: a previously discovered handle with karma on the date. -/
theorem phase3Player_prev_found (karmaCache : List (String × List (String × KarmaData)))
    (tol : Nat) (d₀ : String) (st : Phase3State) (p : S6Player) (drec : S6Discovery)
    (karma : KarmaData) (h1 : pyTruthyStr p.playerId = false)
    (h2 : pyTruthyInt p.ranking = true)
    (hd : dictGet st.discovered (lowerStr p.handle) = some drec)
    (hk : dictGet ((dictGet karmaCache d₀).getD []) drec.userId = some karma) :
    phase3Player karmaCache tol d₀ st p =
      ({ p with playerId := some drec.userId, karmaAmount := some karma.amount,
                karmaRank := some karma.rank, matchMethod := "previously_discovered" },
       { st with matchedPerDate := addToSet st.matchedPerDate d₀ drec.userId }) := by
  simp [phase3Player, h1, h2, hd, hk]

/-- Branch equation: a previously discovered handle without karma on the date. -/
theorem phase3Player_prev_nokarma (karmaCache : List (String × List (String × KarmaData)))
    (tol : Nat) (d₀ : String) (st : Phase3State) (p : S6Player) (drec : S6Discovery)
    (h1 : pyTruthyStr p.playerId = false) (h2 : pyTruthyInt p.ranking = true)
    (hd : dictGet st.discovered (lowerStr p.handle) = some drec)
    (hk : dictGet ((dictGet karmaCache d₀).getD []) drec.userId = none) :
    phase3Player karmaCache tol d₀ st p = (p, st) := by
  simp [phase3Player, h1, h2, hd, hk]

/-- Branch equation: a fresh handle resolved by rank discovery. -/
theorem phase3Player_rank_hit (karmaCache : List (String × List (String × KarmaData)))
    (tol : Nat) (d₀ : String) (st : Phase3State) (p : S6Player) (hit : RankHit)
    (h1 : pyTruthyStr p.playerId = false) (h2 : pyTruthyInt p.ranking = true)
    (hd : dictGet st.discovered (lowerStr p.handle) = none)
    (hr : discoverByRank karmaCache tol p.handle (p.ranking.getD 0) d₀
        ((dictGet st.matchedPerDate d₀).getD []) = some hit) :
    phase3Player karmaCache tol d₀ st p =
      ({ p with playerId := some hit.userId, karmaAmount := some hit.data.amount,
                karmaRank := some hit.data.rank, matchMethod := "rank_discovery",
                matchUncertain := hit.uncertain },
       { discovered := setAssoc st.discovered (lowerStr p.handle)
           { userId := hit.userId,
             confidence := if hit.uncertain then "low" else "medium",
             method := "rank" },
         matchedPerDate := addToSet st.matchedPerDate d₀ hit.userId }) := by
  simp [phase3Player, h1, h2, hd, hr]

/-- Branch equation: a fresh handle with no rank-discovery hit. -/
theorem phase3Player_rank_miss (karmaCache : List (String × List (String × KarmaData)))
    (tol : Nat) (d₀ : String) (st : Phase3State) (p : S6Player)
    (h1 : pyTruthyStr p.playerId = false) (h2 : pyTruthyInt p.ranking = true)
    (hd : dictGet st.discovered (lowerStr p.handle) = none)
    (hr : discoverByRank karmaCache tol p.handle (p.ranking.getD 0) d₀
        ((dictGet st.matchedPerDate d₀).getD []) = none) :
    phase3Player karmaCache tol d₀ st p = (p, st) := by
  simp [phase3Player, h1, h2, hd, hr]

/-- Lookup after extending a per-date set, same key. -/
theorem addToSet_get_self (m : List (String × List String)) (k v : String) :
    (dictGet (addToSet m k v) k).getD [] = addUnique ((dictGet m k).getD []) v := by
  unfold addToSet
  rw [dictGet_setAssoc_self]
  rfl

/-- Lookup after extending a per-date set, other key. -/
theorem addToSet_get_ne (m : List (String × List String)) (k k' v : String)
    (h : k' ≠ k) : dictGet (addToSet m k v) k' = dictGet m k' := by
  unfold addToSet
  exact dictGet_setAssoc_ne _ _ _ _ h

/-- One phase-3 step preserves the per-date uniqueness invariant, for any
input entry not already labelled as a rank discovery. -/
theorem phase3Player_inv (karmaCache : List (String × List (String × KarmaData)))
    (tol : Nat) (d₀ : String) (st : Phase3State) (p : S6Player)
    (hm : p.matchMethod ≠ "rank_discovery") (out : List (String × S6Player))
    (hinv : Phase3Inv out st) :
    Phase3Inv (out ++ [(d₀, (phase3Player karmaCache tol d₀ st p).1)])
      (phase3Player karmaCache tol d₀ st p).2 := by
  have hpnone : rankIdOf p = none := by unfold rankIdOf; rw [if_neg hm]
  cases h1 : pyTruthyStr p.playerId with
  | true =>
      rw [phase3Player_skip_id karmaCache tol d₀ st p h1]
      exact Phase3Inv_append_none out st st d₀ p hpnone (fun d i hi => hi) hinv
  | false =>
      cases h2 : pyTruthyInt p.ranking with
      | false =>
          rw [phase3Player_skip_rank karmaCache tol d₀ st p h1 h2]
          exact Phase3Inv_append_none out st st d₀ p hpnone (fun d i hi => hi) hinv
      | true =>
          cases hd : dictGet st.discovered (lowerStr p.handle) with
          | some drec =>
              cases hk : dictGet ((dictGet karmaCache d₀).getD []) drec.userId with
              | some karma =>
                  rw [phase3Player_prev_found karmaCache tol d₀ st p drec karma h1 h2 hd hk]
                  refine Phase3Inv_append_none out st _ d₀ _ (by simp [rankIdOf]) ?_ hinv
                  intro d i hi
                  by_cases hdd : d = d₀
                  · subst hdd
                    show i ∈ (dictGet (addToSet st.matchedPerDate d drec.userId) d).getD []
                    rw [addToSet_get_self]
                    exact mem_addUnique_of_mem _ hi
                  · show i ∈ (dictGet (addToSet st.matchedPerDate d₀ drec.userId) d).getD []
                    rw [addToSet_get_ne _ _ _ _ hdd]
                    exact hi
              | none =>
                  rw [phase3Player_prev_nokarma karmaCache tol d₀ st p drec h1 h2 hd hk]
                  exact Phase3Inv_append_none out st st d₀ p hpnone (fun d i hi => hi) hinv
          | none =>
              cases hr : discoverByRank karmaCache tol p.handle (p.ranking.getD 0) d₀
                  ((dictGet st.matchedPerDate d₀).getD []) with
              | some hit =>
                  rw [phase3Player_rank_hit karmaCache tol d₀ st p hit h1 h2 hd hr]
                  refine Phase3Inv_append_new out st _ d₀ _ hit.userId
                    (by simp [rankIdOf]) ?_ ?_ ?_ hinv
                  · exact discoverByRank_not_excluded karmaCache tol p.handle
                      (p.ranking.getD 0) d₀ _ hit hr
                  · intro i hi
                    show i ∈ (dictGet (addToSet st.matchedPerDate d₀ hit.userId) d₀).getD []
                    rw [addToSet_get_self]
                    rcases hi with hi | hi
                    · exact mem_addUnique_of_mem _ hi
                    · rw [hi]; exact mem_addUnique_self _ _
                  · intro d hdd
                    show (dictGet (addToSet st.matchedPerDate d₀ hit.userId) d).getD [] =
                      excOf st d
                    rw [addToSet_get_ne _ _ _ _ hdd]
                    rfl
              | none =>
                  rw [phase3Player_rank_miss karmaCache tol d₀ st p h1 h2 hd hr]
                  exact Phase3Inv_append_none out st st d₀ p hpnone (fun d i hi => hi) hinv

/-- The phase-3 fold preserves the invariant. -/
theorem phase3Fold_inv (karmaCache : List (String × List (String × KarmaData))) (tol : Nat) :
    ∀ (items : List (String × S6Player)) (acc : List (String × S6Player) × Phase3State),
      (∀ it ∈ items, it.2.matchMethod ≠ "rank_discovery") →
      Phase3Inv acc.1 acc.2 →
      Phase3Inv (items.foldl (phase3FlatStep karmaCache tol) acc).1
        (items.foldl (phase3FlatStep karmaCache tol) acc).2 := by
  intro items
  induction items with
  | nil => intro acc _ h; exact h
  | cons it rest ih =>
      intro acc hall h
      simp only [List.foldl_cons]
      refine ih _ (fun x hx => hall x (by simp [hx])) ?_
      exact phase3Player_inv karmaCache tol it.1 acc.2 it.2
        (hall it (by simp)) acc.1 h

/-- Claim C10: during rank-based discovery a canonical id in the per-date
excluded set is never returned (in both discover_by_rank variants); and the
phase-3 run records every rank-discovery assignment in the exclusion set of
its date, so the ids assigned by rank discovery on any single date within a
run are pairwise distinct, provided no input entry is already labelled as a
rank discovery. -/
theorem rank_discovery_unique_per_date
    (karmaCache : List (String × List (String × KarmaData))) (tol : Nat) :
    (∀ (handle : String) (wr : Int) (gameDate : String) (excl : List String)
        (hit : RankHit),
      discoverByRank karmaCache tol handle wr gameDate excl = some hit →
      hit.userId ∉ excl) ∧
    (∀ (handle : String) (wr : Int) (gameDate : String) (known : List String)
        (hit : RankHit),
      discoverByRankKM karmaCache tol handle wr gameDate known = some hit →
      hit.userId ∉ known) ∧
    (∀ (st : Phase3State) (items : List (String × S6Player)),
      (∀ it ∈ items, it.2.matchMethod ≠ "rank_discovery") →
      ∀ d, (rankIdsOn d (processPhase3Flat karmaCache tol st items).1).Nodup ∧
        ∀ i ∈ rankIdsOn d (processPhase3Flat karmaCache tol st items).1,
          i ∈ excOf (processPhase3Flat karmaCache tol st items).2 d) := by
  refine ⟨?_, ?_, ?_⟩
  · intro handle wr gameDate excl hit h
    exact discoverByRank_not_excluded karmaCache tol handle wr gameDate excl hit h
  · intro handle wr gameDate known hit h
    exact discoverByRankKM_not_known karmaCache tol handle wr gameDate known hit h
  · intro st items hall
    have hbase : Phase3Inv ([] : List (String × S6Player)) st := by
      intro d
      constructor
      · simp [rankIdsOn]
      · intro i hi
        simp [rankIdsOn] at hi
    exact phase3Fold_inv karmaCache tol items ([], st) hall hbase

/-- Karma cache of the C10 witness run: one date with two nearby ranks. -/
def karmaCacheW : List (String × List (String × KarmaData)) :=
  [("2025-03-01",
    [("u1", { amount := 500, rank := 10, username := "x1" }),
     ("u2", { amount := 400, rank := 12, username := "x2" })])]

/-- Items of the C10 witness run: two fresh players on the same date with
overlapping rank expectations. -/
def itemsW : List (String × S6Player) :=
  [("2025-03-01", { handle := "alice", ranking := some 10 }),
   ("2025-03-01", { handle := "bob", ranking := some 11 })]

/-- Claim C10 witness: the uniqueness theorem applied at the concrete run in
which both players would individually match the same closest id, and at a
concrete discovery against a nonempty exclusion set, discharging every
hypothesis. -/
theorem rank_discovery_unique_per_date_witness :
    (rankIdsOn "2025-03-01" (processPhase3Flat karmaCacheW 50 ⟨[], []⟩ itemsW).1).Nodup ∧
    ({ userId := "u2", data := { amount := 400, rank := 12, username := "x2" },
       uncertain := false, candidates := none } : RankHit).userId ∉ ["u1"] :=
  ⟨((rank_discovery_unique_per_date karmaCacheW 50).2.2 ⟨[], []⟩ itemsW
      (by decide) "2025-03-01").1,
   (rank_discovery_unique_per_date karmaCacheW 50).1 "carol" 10 "2025-03-01" ["u1"]
     { userId := "u2", data := { amount := 400, rank := 12, username := "x2" },
       uncertain := false, candidates := none } (by decide)⟩

/-- Lookup through an append when the left part already has the key. -/
theorem dictGet_append_of_some {α : Type} (l1 l2 : List (String × α)) (h : String)
    (r : α) (hs : dictGet l1 h = some r) : dictGet (l1 ++ l2) h = some r := by
  induction l1 with
  | nil => rw [show dictGet ([] : List (String × α)) h = none from rfl] at hs; cases hs
  | cons p rest ih =>
      obtain ⟨k0, v0⟩ := p
      rw [dictGet_cons] at hs
      rw [List.cons_append, dictGet_cons]
      by_cases hk : k0 = h
      · rw [if_pos hk] at hs ⊢; exact hs
      · rw [if_neg hk] at hs ⊢; exact ih hs

/-- Lookup through an append when the left part lacks the key. -/
theorem dictGet_append_of_none {α : Type} (l1 l2 : List (String × α)) (h : String)
    (hn : dictGet l1 h = none) : dictGet (l1 ++ l2) h = dictGet l2 h := by
  induction l1 with
  | nil => rfl
  | cons p rest ih =>
      obtain ⟨k0, v0⟩ := p
      rw [dictGet_cons] at hn
      rw [List.cons_append, dictGet_cons]
      by_cases hk : k0 = h
      · rw [if_pos hk] at hn; cases hn
      · rw [if_neg hk] at hn ⊢; exact ih hn

/-- The keep-first merge never replaces an existing record. -/
theorem mergeKeepFirst_preserves (extra : List (String × Discovery)) :
    ∀ (base : List (String × Discovery)) (h : String) (r : Discovery),
      dictGet base h = some r → dictGet (mergeKeepFirst base extra) h = some r := by
  induction extra with
  | nil => intro base h r hs; exact hs
  | cons p rest ih =>
      intro base h r hs
      unfold mergeKeepFirst
      simp only [List.foldl_cons]
      show dictGet (mergeKeepFirst
        (if (dictGet base p.1).isSome then base else base ++ [p]) rest) h = some r
      split_ifs with hc
      · exact ih base h r hs
      · exact ih (base ++ [p]) h r (dictGet_append_of_some base [p] h r hs)

/-- The keep-first merge adopts a later record exactly when the handle is
new to the base. -/
theorem mergeKeepFirst_adds (extra : List (String × Discovery)) :
    ∀ (base : List (String × Discovery)) (h : String) (r : Discovery),
      dictGet base h = none → dictGet extra h = some r →
      dictGet (mergeKeepFirst base extra) h = some r := by
  induction extra with
  | nil => intro base h r _ he; cases he
  | cons p rest ih =>
      intro base h r hb he
      obtain ⟨k0, v0⟩ := p
      rw [dictGet_cons] at he
      unfold mergeKeepFirst
      simp only [List.foldl_cons]
      show dictGet (mergeKeepFirst
        (if (dictGet base (k0, v0).1).isSome then base else base ++ [(k0, v0)]) rest) h
        = some r
      by_cases hk : k0 = h
      · rw [if_pos hk] at he
        subst hk
        rw [hb]
        simp only [Option.isSome_none, Bool.false_eq_true, if_false]
        refine mergeKeepFirst_preserves rest (base ++ [(k0, v0)]) k0 r ?_
        rw [dictGet_append_of_none base [(k0, v0)] k0 hb, dictGet_cons, if_pos rfl]
        cases he
        rfl
      · rw [if_neg hk] at he
        split_ifs with hc
        · exact ih base h r hb he
        · refine ih (base ++ [(k0, v0)]) h r ?_ he
          rw [dictGet_append_of_none base [(k0, v0)] h hb, dictGet_cons, if_neg hk]
          rfl

/-- One phase-3 step never rewrites an existing discovered-handle entry: the
discovery dict is only extended at a handle whose lookup was empty. -/
theorem phase3Player_discovered_preserved
    (karmaCache : List (String × List (String × KarmaData))) (tol : Nat) (d₀ : String)
    (st : Phase3State) (p : S6Player) (h6 : String) (r6 : S6Discovery)
    (h : dictGet st.discovered h6 = some r6) :
    dictGet (phase3Player karmaCache tol d₀ st p).2.discovered h6 = some r6 := by
  cases h1 : pyTruthyStr p.playerId with
  | true => rw [phase3Player_skip_id karmaCache tol d₀ st p h1]; exact h
  | false =>
      cases h2 : pyTruthyInt p.ranking with
      | false => rw [phase3Player_skip_rank karmaCache tol d₀ st p h1 h2]; exact h
      | true =>
          cases hd : dictGet st.discovered (lowerStr p.handle) with
          | some drec =>
              cases hk : dictGet ((dictGet karmaCache d₀).getD []) drec.userId with
              | some karma =>
                  rw [phase3Player_prev_found karmaCache tol d₀ st p drec karma h1 h2 hd hk]
                  exact h
              | none =>
                  rw [phase3Player_prev_nokarma karmaCache tol d₀ st p drec h1 h2 hd hk]
                  exact h
          | none =>
              cases hr : discoverByRank karmaCache tol p.handle (p.ranking.getD 0) d₀
                  ((dictGet st.matchedPerDate d₀).getD []) with
              | some hit =>
                  rw [phase3Player_rank_hit karmaCache tol d₀ st p hit h1 h2 hd hr]
                  show dictGet (setAssoc st.discovered (lowerStr p.handle) _) h6 = some r6
                  rw [dictGet_setAssoc_ne]
                  · exact h
                  · intro he
                    rw [he, hd] at h
                    cases h
              | none =>
                  rw [phase3Player_rank_miss karmaCache tol d₀ st p h1 h2 hd hr]
                  exact h

/-- The phase-3 fold never rewrites an existing discovered-handle entry. -/
theorem phase3Fold_discovered_preserved
    (karmaCache : List (String × List (String × KarmaData))) (tol : Nat) :
    ∀ (items : List (String × S6Player)) (acc : List (String × S6Player) × Phase3State)
      (h6 : String) (r6 : S6Discovery),
      dictGet acc.2.discovered h6 = some r6 →
      dictGet (items.foldl (phase3FlatStep karmaCache tol) acc).2.discovered h6 = some r6 := by
  intro items
  induction items with
  | nil => intro acc h6 r6 h; exact h
  | cons it rest ih =>
      intro acc h6 r6 h
      simp only [List.foldl_cons]
      exact ih _ h6 r6 (phase3Player_discovered_preserved karmaCache tol it.1 acc.2 it.2 h6 r6 h)

/-- Claim C1: once a handle is resolved it is never changed by a later
strategy.  In run_all_strategies a record produced by the username strategy
survives both later merges unchanged, and a record produced by the
rank-pattern strategy for a handle the username strategy left unresolved
survives the final merge unchanged; hence a record is never replaced at all
(in particular never downgraded, and replacement by a strictly higher
confidence class holds vacuously).  In the s6 reconstruction, phase 3 never
rewrites an entry already present in the discovered dict. -/
theorem identity_resolution_no_downgrade
    ( ratio : String → String → ℚ) ( fetch : String → List RankedDay)
    (existing : List String) (karmaByDate : List (String × List KarmaEntry))
    (games : List DiscGame) (h : String) (r : Discovery)
    (karmaCache : List (String × List (String × KarmaData))) (tol : Nat)
    (st : Phase3State) (items : List (String × S6Player)) (h6 : String)
    (r6 : S6Discovery) :
    (dictGet (strategyUsernameMatch ratio existing karmaByDate games) h = some r →
      dictGet (runAllStrategies ratio fetch existing karmaByDate games) h = some r) ∧
    (dictGet (strategyUsernameMatch ratio existing karmaByDate games) h = none →
      dictGet (strategyRankPattern existing karmaByDate games) h = some r →
      dictGet (runAllStrategies ratio fetch existing karmaByDate games) h = some r) ∧
    (dictGet st.discovered h6 = some r6 →
      dictGet (processPhase3Flat karmaCache tol st items).2.discovered h6 = some r6) := by
  refine ⟨?_, ?_, ?_⟩
  · intro hu
    unfold runAllStrategies
    exact mergeKeepFirst_preserves _ _ h r (mergeKeepFirst_preserves _ _ h r hu)
  · intro hu hr
    unfold runAllStrategies
    exact mergeKeepFirst_preserves _ _ h r (mergeKeepFirst_adds _ _ h r hu hr)
  · intro hs
    exact phase3Fold_discovered_preserved karmaCache tol items ([], st) h6 r6 hs

/-- Karma snapshots of the C1 witness run. -/
def karmaW1 : List (String × List KarmaEntry) :=
  [("2025-03-01",
    [{ userId := "u1", username := "alice", amount := 100, rank := 10 },
     { userId := "u2", username := "zed", amount := 90, rank := 12 }]),
   ("2025-03-02",
    [{ userId := "u1", username := "alice", amount := 100, rank := 11 },
     { userId := "u2", username := "zed", amount := 95, rank := 13 }])]

/-- Games of the C1 witness run: one handle resolvable by username, one only
by rank pattern. -/
def gamesW1 : List DiscGame :=
  [{ gameDate := "2025-03-01",
     rosterA := [{ handle := "alice", ranking := some 10 },
                 { handle := "bob", ranking := some 12 }],
     rosterB := [] },
   { gameDate := "2025-03-02",
     rosterA := [{ handle := "alice", ranking := some 11 },
                 { handle := "bob", ranking := some 13 }],
     rosterB := [] }]

/-- Similarity used by the C1 witness run: exact equality only. -/
def ratioW1 : String → String → ℚ := fun a b => if a = b then 1 else 0

/-- Claim C1 witness: the preservation theorem applied at the concrete run,
discharging each hypothesis: the username record of alice survives all
merges, the rank record of the username-unresolved bob survives the final
merge, and a pre-existing discovered entry survives a phase-3 run. -/
theorem identity_resolution_no_downgrade_witness :
    dictGet (runAllStrategies ratioW1 (fun _ => []) [] karmaW1 gamesW1) "alice" =
      some { userId := "u1", confidence := "high", method := "username_exact",
             evidence := DiscEvidence.usernameExact "alice" } ∧
    dictGet (runAllStrategies ratioW1 (fun _ => []) [] karmaW1 gamesW1) "bob" =
      some { userId := "u2", confidence := "medium", method := "rank_pattern",
             evidence := DiscEvidence.rankPatternBest 2 0 } ∧
    dictGet (processPhase3Flat karmaCacheW 50
        ⟨[("carol", { userId := "u9", confidence := "high", method := "username" })], []⟩
        itemsW).2.discovered "carol" =
      some { userId := "u9", confidence := "high", method := "username" } :=
  ⟨(identity_resolution_no_downgrade ratioW1 (fun _ => []) [] karmaW1 gamesW1 "alice"
      { userId := "u1", confidence := "high", method := "username_exact",
        evidence := DiscEvidence.usernameExact "alice" }
      [] 0 ⟨[], []⟩ [] "" { userId := "", confidence := "", method := "" }).1
    (by decide),
   (identity_resolution_no_downgrade ratioW1 (fun _ => []) [] karmaW1 gamesW1 "bob"
      { userId := "u2", confidence := "medium", method := "rank_pattern",
        evidence := DiscEvidence.rankPatternBest 2 0 }
      [] 0 ⟨[], []⟩ [] "" { userId := "", confidence := "", method := "" }).2.1
    (by decide) (by decide),
   (identity_resolution_no_downgrade ratioW1 (fun _ => []) [] karmaW1 gamesW1 ""
      { userId := "", confidence := "", method := "",
        evidence := DiscEvidence.usernameExact "" }
      karmaCacheW 50
      ⟨[("carol", { userId := "u9", confidence := "high", method := "username" })], []⟩
      itemsW "carol"
      { userId := "u9", confidence := "high", method := "username" }).2.2
    (by decide)⟩

/-! ### C4: rank-pattern resolution -/

/-- The deviation scan started from a best pair only moves to candidates of
the scanned list and only on strict improvement, so the final pair is in the
list or is the start, never exceeds the start, and bounds every scanned
candidate from below. -/
theorem bestDev_fold (kbd : List (String × List KarmaEntry))
    (rk : List (String × Int)) :
    ∀ (cands : List String) (p : String × Nat),
      ∃ q, cands.foldl (bestDevStep kbd rk) (some p) = some q ∧
        (q = p ∨ (q.1 ∈ cands ∧ q.2 = totalDeviation kbd rk q.1)) ∧
        q.2 ≤ p.2 ∧ ∀ x ∈ cands, q.2 ≤ totalDeviation kbd rk x := by
  intro cands
  induction cands with
  | nil =>
      intro p
      exact ⟨p, rfl, Or.inl rfl, le_refl _, by simp⟩
  | cons c cs ih =>
      intro p
      simp only [List.foldl_cons, bestDevStep]
      by_cases hlt : totalDeviation kbd rk c < p.2
      · rw [if_pos hlt]
        obtain ⟨q, hq, horig, hle, hall⟩ := ih (c, totalDeviation kbd rk c)
        refine ⟨q, hq, ?_, le_trans hle (le_of_lt hlt), ?_⟩
        · rcases horig with h | h
          · exact Or.inr ⟨by simp [h], by rw [h]⟩
          · exact Or.inr ⟨List.mem_cons_of_mem _ h.1, h.2⟩
        · intro x hx
          rcases List.mem_cons.mp hx with h | h
          · rw [h]; exact hle
          · exact hall x h
      · rw [if_neg hlt]
        obtain ⟨q, hq, horig, hle, hall⟩ := ih p
        refine ⟨q, hq, ?_, hle, ?_⟩
        · rcases horig with h | h
          · exact Or.inl h
          · exact Or.inr ⟨List.mem_cons_of_mem _ h.1, h.2⟩
        · intro x hx
          rcases List.mem_cons.mp hx with h | h
          · rw [h]; exact le_trans hle (not_lt.mp hlt)
          · exact hall x h

/-- On a nonempty candidate list, the deviation scan returns a candidate of
the list paired with its own total deviation, minimal over the list. -/
theorem bestByDeviation_spec (kbd : List (String × List KarmaEntry))
    (rk : List (String × Int)) (cands : List String) (hne : cands ≠ []) :
    ∃ q, bestByDeviation kbd rk cands = some q ∧ q.1 ∈ cands ∧
      q.2 = totalDeviation kbd rk q.1 ∧
      ∀ x ∈ cands, q.2 ≤ totalDeviation kbd rk x := by
  cases cands with
  | nil => exact absurd rfl hne
  | cons c0 cs =>
      unfold bestByDeviation
      simp only [List.foldl_cons, bestDevStep]
      obtain ⟨q, hq, horig, hle, hall⟩ := bestDev_fold kbd rk cs (c0, totalDeviation kbd rk c0)
      refine ⟨q, hq, ?_, ?_, ?_⟩
      · rcases horig with h | h
        · rw [h]; exact List.mem_cons_self _ _
        · exact List.mem_cons_of_mem _ h.1
      · rcases horig with h | h
        · rw [h]
        · exact h.2
      · intro x hx
        rcases List.mem_cons.mp hx with h | h
        · rw [h]; exact hle
        · exact hall x h

/-- Concrete expected-rank schedule: two dates, expected ranks 10 and 20. -/
def rankingsC4 : List (String × Int) :=
  [("2025-03-01", 10), ("2025-03-02", 20)]

/-- Concrete karma snapshots: on both dates users u1 and u2 are within 30 of
the expected rank while u9 is far off, so the intersection has the two
survivors u1 (total deviation 4) and u2 (total deviation 15). -/
def karmaC4 : List (String × List KarmaEntry) :=
  [("2025-03-01",
     [{ userId := "u1", username := "alice", amount := 500, rank := 12 },
      { userId := "u2", username := "bob", amount := 400, rank := 15 },
      { userId := "u9", username := "carol", amount := 10, rank := 100 }]),
   ("2025-03-02",
     [{ userId := "u1", username := "alice", amount := 600, rank := 22 },
      { userId := "u2", username := "bob", amount := 300, rank := 30 },
      { userId := "u9", username := "carol", amount := 20, rank := 95 }])]

/-- With two survivors, strategy_rank_pattern resolves to the deviation
minimizer but its record carries no uncertain flag and no survivor count:
the evidence records date count and total deviation only.  This refutes the
claimed "flagged uncertain, survivor count recorded as evidence". -/
theorem rank_pattern_uncertain_flag_counterexample :
    1 < (commonCandidates (dateCandidateSets karmaC4 rankingsC4)).length ∧
    rankPatternOne karmaC4 rankingsC4 =
      some { userId := "u1", confidence := "medium", method := "rank_pattern",
             evidence := DiscEvidence.rankPatternBest 2 4 } ∧
    (∀ d, rankPatternOne karmaC4 rankingsC4 = some d →
      d.uncertain = false ∧ d.candidateCount = none) := by
  refine ⟨by decide, by decide, ?_⟩
  intro d hd
  have : d = { userId := "u1", confidence := "medium", method := "rank_pattern",
               evidence := DiscEvidence.rankPatternBest 2 4 } := by
    have h2 : rankPatternOne karmaC4 rankingsC4 =
        some { userId := "u1", confidence := "medium", method := "rank_pattern",
               evidence := DiscEvidence.rankPatternBest 2 4 } := by decide
    rw [h2] at hd
    exact (Option.some.injEq _ _ ▸ hd).symm
  rw [this]
  exact ⟨rfl, rfl⟩

/-- **C4** (amended): per-handle behaviour of strategy_rank_pattern.  With
fewer than two expected dates, or with an empty intersection of the per-date
within-30 candidate sets, the handle is left unresolved; a unique survivor
resolves at confidence high with the date count as evidence; with several
survivors the result, if any, is a survivor whose total absolute rank
deviation is minimal over the survivors, at confidence medium, with the date
count and that deviation as evidence — and, contrary to the original claim,
with no uncertain flag and no recorded survivor count. -/
theorem rank_pattern_resolution (karmaByDate : List (String × List KarmaEntry))
    (rankings : List (String × Int)) :
    (rankings.length < 2 → rankPatternOne karmaByDate rankings = none) ∧
    (commonCandidates (dateCandidateSets karmaByDate rankings) = [] →
      rankPatternOne karmaByDate rankings = none) ∧
    (∀ u, 2 ≤ rankings.length →
      commonCandidates (dateCandidateSets karmaByDate rankings) = [u] →
      rankPatternOne karmaByDate rankings =
        some { userId := u, confidence := "high", method := "rank_pattern",
               evidence := DiscEvidence.rankPatternUnique rankings.length }) ∧
    (2 ≤ rankings.length →
      1 < (commonCandidates (dateCandidateSets karmaByDate rankings)).length →
      ∀ d, rankPatternOne karmaByDate rankings = some d →
        d.userId ∈ commonCandidates (dateCandidateSets karmaByDate rankings) ∧
        d.confidence = "medium" ∧ d.method = "rank_pattern" ∧
        d.evidence = DiscEvidence.rankPatternBest rankings.length
          (totalDeviation karmaByDate rankings d.userId) ∧
        (∀ c ∈ commonCandidates (dateCandidateSets karmaByDate rankings),
          totalDeviation karmaByDate rankings d.userId ≤
            totalDeviation karmaByDate rankings c) ∧
        d.uncertain = false ∧ d.candidateCount = none) := by
  refine ⟨?_, ?_, ?_, ?_⟩
  · intro hlen
    simp only [rankPatternOne]
    rw [if_pos hlen]
  · intro hc
    simp only [rankPatternOne]
    by_cases hlen : rankings.length < 2
    · rw [if_pos hlen]
    · rw [if_neg hlen]
      by_cases hde : (dateCandidateSets karmaByDate rankings).isEmpty
      · rw [if_pos hde]
      · rw [if_neg hde, hc]
        simp
  · intro u hlen hc
    simp only [rankPatternOne]
    rw [if_neg (by omega)]
    have hde : ¬ (dateCandidateSets karmaByDate rankings).isEmpty := by
      intro h
      rw [List.isEmpty_iff] at h
      rw [h] at hc
      simp [commonCandidates] at hc
    rw [if_neg hde, hc]
    simp
  · intro hlen hgt d hd
    simp only [rankPatternOne] at hd
    rw [if_neg (by omega)] at hd
    have hne : commonCandidates (dateCandidateSets karmaByDate rankings) ≠ [] := by
      intro h
      rw [h] at hgt
      simp at hgt
    have hde : ¬ (dateCandidateSets karmaByDate rankings).isEmpty := by
      intro h
      rw [List.isEmpty_iff] at h
      apply hne
      rw [h]
      simp [commonCandidates]
    rw [if_neg hde, if_neg (by omega), if_pos hgt] at hd
    obtain ⟨⟨c0, dev0⟩, hq, hmem, hdev, hmin⟩ :=
      bestByDeviation_spec karmaByDate rankings
        (commonCandidates (dateCandidateSets karmaByDate rankings)) hne
    rw [hq] at hd
    have hmem0 : c0 ∈ commonCandidates (dateCandidateSets karmaByDate rankings) := hmem
    have hdev0 : dev0 = totalDeviation karmaByDate rankings c0 := hdev
    have hmin0 : ∀ x ∈ commonCandidates (dateCandidateSets karmaByDate rankings),
        dev0 ≤ totalDeviation karmaByDate rankings x := hmin
    by_cases hq1 : c0 ≠ ""
    · have hd2 : some ({ userId := c0, confidence := "medium", method := "rank_pattern",
                         evidence := DiscEvidence.rankPatternBest rankings.length dev0 } :
          Discovery) = some d := by
        rw [← hd]
        exact (if_pos hq1).symm
      have hdval : d = { userId := c0, confidence := "medium", method := "rank_pattern",
                         evidence := DiscEvidence.rankPatternBest rankings.length dev0 } :=
        (Option.some.inj hd2).symm
      subst hdval
      refine ⟨hmem0, rfl, rfl, ?_, ?_, rfl, rfl⟩
      · simp only [hdev0]
      · intro c hcmem
        rw [show totalDeviation karmaByDate rankings c0 = dev0 from hdev0.symm]
        exact hmin0 c hcmem
    · have hd2 : (none : Option Discovery) = some d := by
        rw [← hd]
        exact (if_neg hq1).symm
      exact absurd hd2 (by simp)

/-- The resolved discovery at the two-survivor input: u1 at deviation 4. -/
def dC4 : Discovery :=
  { userId := "u1", confidence := "medium", method := "rank_pattern",
    evidence := DiscEvidence.rankPatternBest 2 4 }

/-- Witness: at the concrete two-survivor input, the multiple-survivor
clause of rank_pattern_resolution applies with all hypotheses discharged. -/
theorem rank_pattern_resolution_witness :
    (2 ≤ rankingsC4.length ∧
     1 < (commonCandidates (dateCandidateSets karmaC4 rankingsC4)).length ∧
     rankPatternOne karmaC4 rankingsC4 = some dC4) ∧
    (dC4.userId ∈ commonCandidates (dateCandidateSets karmaC4 rankingsC4) ∧
     dC4.confidence = "medium" ∧ dC4.method = "rank_pattern" ∧
     dC4.evidence = DiscEvidence.rankPatternBest rankingsC4.length
       (totalDeviation karmaC4 rankingsC4 dC4.userId) ∧
     (∀ c ∈ commonCandidates (dateCandidateSets karmaC4 rankingsC4),
       totalDeviation karmaC4 rankingsC4 dC4.userId ≤
         totalDeviation karmaC4 rankingsC4 c) ∧
     dC4.uncertain = false ∧ dC4.candidateCount = none) :=
  ⟨⟨by decide, by decide, by decide⟩,
   (rank_pattern_resolution karmaC4 rankingsC4).2.2.2 (by decide) (by decide)
     dC4 (by decide)⟩

/-! ### C5: username matching -/

/-- Ratio carried by the accumulator of the fuzzy scan (0 when empty). -/
def curBest (b : Option (String × String × ℚ)) : ℚ :=
  match b with
  | none => 0
  | some p => p.2.2

/-- Characterization of the fuzzy scan from any accumulator whose ratio is
already above 0.85: a some result is above 0.85, is the start or an
unambiguous entry of the list carrying its own ratio, dominates the start,
and dominates every unambiguous entry; a none result means the start was
none and every unambiguous entry is at or below 0.85. -/
theorem bestFuzzy_fold ( ratio : String → String → ℚ) (hl : String) :
    ∀ (idx : List (String × List String)) (b : Option (String × String × ℚ)),
      (∀ p, b = some p → mkRat 85 100 < p.2.2) →
      ((∀ u uid r, idx.foldl (bestFuzzyStep ratio hl) b = some (u, uid, r) →
        mkRat 85 100 < r ∧
        (b = some (u, uid, r) ∨
          ∃ ids, (u, ids) ∈ idx ∧ ids.length ≤ 1 ∧ uid = ids.headD "" ∧ r = ratio hl u) ∧
        (∀ p, b = some p → p.2.2 ≤ r) ∧
        (∀ e ∈ idx, e.2.length ≤ 1 → ratio hl e.1 ≤ r)) ∧
      (idx.foldl (bestFuzzyStep ratio hl) b = none →
        b = none ∧ ∀ e ∈ idx, e.2.length ≤ 1 → ratio hl e.1 ≤ mkRat 85 100)) := by
  intro idx
  induction idx with
  | nil =>
      intro b hb
      refine ⟨?_, ?_⟩
      · intro u uid r h
        simp only [List.foldl_nil] at h
        refine ⟨hb _ h, Or.inl h, ?_, by simp⟩
        intro p hp
        rw [hp] at h
        cases Option.some.inj h
        exact le_refl _
      · intro h
        simp only [List.foldl_nil] at h
        exact ⟨h, by simp⟩
  | cons e rest ih =>
      intro b hb
      simp only [List.foldl_cons]
      by_cases hlen : e.2.length > 1
      · have hstep : bestFuzzyStep ratio hl b e = b := by
          simp [bestFuzzyStep, hlen]
        rw [hstep]
        obtain ⟨ihs, ihn⟩ := ih b hb
        refine ⟨?_, ?_⟩
        · intro u uid r h
          obtain ⟨h85, horig, hmono, hall⟩ := ihs u uid r h
          refine ⟨h85, ?_, hmono, ?_⟩
          · rcases horig with h2 | ⟨ids, hm, hl2, he2, hr2⟩
            · exact Or.inl h2
            · exact Or.inr ⟨ids, List.mem_cons_of_mem _ hm, hl2, he2, hr2⟩
          · intro x hx hxlen
            rcases List.mem_cons.mp hx with h2 | h2
            · exact absurd (h2 ▸ hxlen) (by omega)
            · exact hall x h2 hxlen
        · intro h
          obtain ⟨hbnone, hrest⟩ := ihn h
          refine ⟨hbnone, ?_⟩
          intro x hx hxlen
          rcases List.mem_cons.mp hx with h2 | h2
          · exact absurd (h2 ▸ hxlen) (by omega)
          · exact hrest x h2 hxlen
      · have hle1 : e.2.length ≤ 1 := by omega
        by_cases htake : ratio hl e.1 > mkRat 85 100 ∧ ratio hl e.1 > curBest b
        · have hstep : bestFuzzyStep ratio hl b e =
              some (e.1, e.2.headD "", ratio hl e.1) := by
            simp only [bestFuzzyStep, if_neg hlen]
            exact if_pos htake
          rw [hstep]
          have hb2 : ∀ p, some (e.1, e.2.headD "", ratio hl e.1) = some p →
              mkRat 85 100 < p.2.2 := by
            intro p hp
            cases Option.some.inj hp
            exact htake.1
          obtain ⟨ihs, ihn⟩ := ih _ hb2
          refine ⟨?_, ?_⟩
          · intro u uid r h
            obtain ⟨h85, horig, hmono, hall⟩ := ihs u uid r h
            refine ⟨h85, ?_, ?_, ?_⟩
            · rcases horig with h2 | ⟨ids, hm, hl2, he2, hr2⟩
              · simp only [Option.some.injEq, Prod.mk.injEq] at h2
                obtain ⟨rfl, rfl, rfl⟩ := h2
                exact Or.inr ⟨e.2, List.mem_cons_self _ _, hle1, rfl, rfl⟩
              · exact Or.inr ⟨ids, List.mem_cons_of_mem _ hm, hl2, he2, hr2⟩
            · intro p hp
              have hlt : p.2.2 < ratio hl e.1 := by
                have h3 := htake.2
                rw [hp] at h3
                simpa [curBest] using h3
              exact le_of_lt (lt_of_lt_of_le hlt (hmono _ rfl))
            · intro x hx hxlen
              rcases List.mem_cons.mp hx with h2 | h2
              · rw [h2]
                exact hmono _ rfl
              · exact hall x h2 hxlen
          · intro h
            obtain ⟨hb3, _⟩ := ihn h
            exact absurd hb3 (by simp)
        · have hstep : bestFuzzyStep ratio hl b e = b := by
            simp only [bestFuzzyStep, if_neg hlen]
            exact if_neg htake
          rw [hstep]
          obtain ⟨ihs, ihn⟩ := ih b hb
          refine ⟨?_, ?_⟩
          · intro u uid r h
            obtain ⟨h85, horig, hmono, hall⟩ := ihs u uid r h
            refine ⟨h85, ?_, hmono, ?_⟩
            · rcases horig with h2 | ⟨ids, hm, hl2, he2, hr2⟩
              · exact Or.inl h2
              · exact Or.inr ⟨ids, List.mem_cons_of_mem _ hm, hl2, he2, hr2⟩
            · intro x hx hxlen
              rcases List.mem_cons.mp hx with h2 | h2
              · rw [h2]
                cases hbcase : b with
                | none =>
                    have hnt : ¬ (ratio hl e.1 > mkRat 85 100 ∧
                        ratio hl e.1 > (0:ℚ)) := by
                      rw [hbcase] at htake
                      simpa [curBest] using htake
                    by_cases h85e : ratio hl e.1 > mkRat 85 100
                    · exact absurd ⟨h85e, lt_trans (by decide) h85e⟩ hnt
                    · exact le_of_lt (lt_of_le_of_lt (not_lt.mp h85e) h85)
                | some p =>
                    have hmonop : p.2.2 ≤ r := hmono p hbcase
                    have hnt : ¬ (ratio hl e.1 > mkRat 85 100 ∧
                        ratio hl e.1 > p.2.2) := by
                      rw [hbcase] at htake
                      simpa [curBest] using htake
                    by_cases h85e : ratio hl e.1 > mkRat 85 100
                    · have hng : ¬ ratio hl e.1 > p.2.2 := fun hgt => hnt ⟨h85e, hgt⟩
                      exact le_trans (not_lt.mp hng) hmonop
                    · exact le_of_lt (lt_of_le_of_lt (not_lt.mp h85e) h85)
              · exact hall x h2 hxlen
          · intro h
            obtain ⟨hbnone, hrest⟩ := ihn h
            refine ⟨hbnone, ?_⟩
            intro x hx hxlen
            rcases List.mem_cons.mp hx with h2 | h2
            · rw [h2]
              have hnt : ¬ (ratio hl e.1 > mkRat 85 100 ∧
                  ratio hl e.1 > (0:ℚ)) := by
                rw [hbnone] at htake
                simpa [curBest] using htake
              by_cases h85e : ratio hl e.1 > mkRat 85 100
              · exact absurd ⟨h85e, lt_trans (by decide) h85e⟩ hnt
              · exact not_lt.mp h85e
            · exact hrest x h2 hxlen

/-- An accepted fuzzy match is above 0.85, originates from an unambiguous
index entry, and dominates every unambiguous entry. -/
theorem bestFuzzy_some_spec ( ratio : String → String → ℚ)
    (idx : List (String × List String)) (hl : String) (u uid : String) (r : ℚ)
    (h : bestFuzzy ratio idx hl = some (u, uid, r)) :
    mkRat 85 100 < r ∧
    (∃ ids, (u, ids) ∈ idx ∧ ids.length ≤ 1 ∧ uid = ids.headD "" ∧ r = ratio hl u) ∧
    ∀ e ∈ idx, e.2.length ≤ 1 → ratio hl e.1 ≤ r := by
  obtain ⟨ihs, _⟩ := bestFuzzy_fold ratio hl idx none (by simp)
  obtain ⟨h85, horig, _, hall⟩ := ihs u uid r h
  rcases horig with h2 | h2
  · exact absurd h2 (by simp)
  · exact ⟨h85, h2, hall⟩

/-- A rejected fuzzy scan bounds every unambiguous ratio by 0.85. -/
theorem bestFuzzy_none_spec ( ratio : String → String → ℚ)
    (idx : List (String × List String)) (hl : String)
    (h : bestFuzzy ratio idx hl = none) :
    ∀ e ∈ idx, e.2.length ≤ 1 → ratio hl e.1 ≤ mkRat 85 100 := by
  obtain ⟨_, ihn⟩ := bestFuzzy_fold ratio hl idx none (by simp)
  exact (ihn h).2

/-- **C5** (amended): per-handle username matching.  In both scripts an
exact lowercased lookup hitting a single-id entry resolves at confidence
high; otherwise the fuzzy scan runs over unambiguous entries only (an entry
with several ids is skipped) and any accepted match carries the maximal
unambiguous ratio, strictly above 0.85; when every unambiguous ratio is at
or below 0.85 and no exact unambiguous hit exists, the handle stays
unresolved.  The tiers differ by script, contrary to the claimed uniform
scale: s6_reconstruction.discover_by_username grades high above 0.95,
medium above 0.90, low otherwise, while
discover-player-ids.strategy_username_match grades only medium above 0.90
and low otherwise — a fuzzy match there is never high. -/
theorem username_match_resolution ( ratio : String → String → ℚ)
    (idx : List (String × List String)) (handle : String) :
    (∀ ids, dictGet idx (lowerStr handle) = some ids → ids.length = 1 →
      usernameMatchOne ratio idx handle =
        some { userId := ids.headD "", confidence := "high", method := "username_exact",
               evidence := DiscEvidence.usernameExact (lowerStr handle) } ∧
      discoverByUsername ratio idx handle = some (ids.headD "", "high")) ∧
    (∀ d, usernameMatchOne ratio idx handle = some d → d.method = "username_fuzzy" →
      ∃ u ids, (u, ids) ∈ idx ∧ ids.length ≤ 1 ∧ d.userId = ids.headD "" ∧
        mkRat 85 100 < ratio (lowerStr handle) u ∧
        (∀ e ∈ idx, e.2.length ≤ 1 →
          ratio (lowerStr handle) e.1 ≤ ratio (lowerStr handle) u) ∧
        d.confidence =
          (if ratio (lowerStr handle) u > mkRat 9 10 then "medium" else "low")) ∧
    ((∀ e ∈ idx, e.2.length ≤ 1 → ratio (lowerStr handle) e.1 ≤ mkRat 85 100) →
      (∀ ids, dictGet idx (lowerStr handle) = some ids → ids.length ≠ 1) →
      usernameMatchOne ratio idx handle = none ∧
      discoverByUsername ratio idx handle = none) ∧
    (∀ uid conf,
      (∀ ids, dictGet idx (lowerStr handle) = some ids → ids.length ≠ 1) →
      discoverByUsername ratio idx handle = some (uid, conf) →
      ∃ u ids, (u, ids) ∈ idx ∧ ids.length ≤ 1 ∧ uid = ids.headD "" ∧
        mkRat 85 100 < ratio (lowerStr handle) u ∧
        (∀ e ∈ idx, e.2.length ≤ 1 →
          ratio (lowerStr handle) e.1 ≤ ratio (lowerStr handle) u) ∧
        conf =
          (if ratio (lowerStr handle) u > mkRat 19 20 then "high"
           else if ratio (lowerStr handle) u > mkRat 9 10 then "medium" else "low")) := by
  refine ⟨?_, ?_, ?_, ?_⟩
  · intro ids hids hlen
    constructor
    · simp [usernameMatchOne, hids, hlen]
    · simp [discoverByUsername, hids, hlen]
  · intro d hd hmethod
    cases hex : dictGet idx (lowerStr handle) with
    | some ids =>
        by_cases hlen : ids.length = 1
        · simp only [usernameMatchOne, hex, hlen, if_true] at hd
          rw [← Option.some.inj hd] at hmethod
          have hlit : ("username_exact" : String) = "username_fuzzy" := hmethod
          exact absurd hlit (by decide)
        · simp only [usernameMatchOne, hex, if_neg hlen] at hd
          cases hbf : bestFuzzy ratio idx (lowerStr handle) with
          | none => rw [hbf] at hd; exact absurd hd (by simp)
          | some t =>
              obtain ⟨u, uid, r⟩ := t
              rw [hbf] at hd
              obtain ⟨h85, ⟨ids2, hm, hl2, he2, hr2⟩, hall⟩ :=
                bestFuzzy_some_spec ratio idx (lowerStr handle) u uid r hbf
              rw [← Option.some.inj hd]
              refine ⟨u, ids2, hm, hl2, he2, ?_, ?_, ?_⟩
              · rw [← hr2]; exact h85
              · intro e he hel
                rw [← hr2]; exact hall e he hel
              · rw [← hr2]
    | none =>
        simp only [usernameMatchOne, hex] at hd
        cases hbf : bestFuzzy ratio idx (lowerStr handle) with
        | none => rw [hbf] at hd; exact absurd hd (by simp)
        | some t =>
            obtain ⟨u, uid, r⟩ := t
            rw [hbf] at hd
            obtain ⟨h85, ⟨ids2, hm, hl2, he2, hr2⟩, hall⟩ :=
              bestFuzzy_some_spec ratio idx (lowerStr handle) u uid r hbf
            rw [← Option.some.inj hd]
            refine ⟨u, ids2, hm, hl2, he2, ?_, ?_, ?_⟩
            · rw [← hr2]; exact h85
            · intro e he hel
              rw [← hr2]; exact hall e he hel
            · rw [← hr2]
  · intro hbound hex1
    have hbf : bestFuzzy ratio idx (lowerStr handle) = none := by
      cases hbf2 : bestFuzzy ratio idx (lowerStr handle) with
      | none => rfl
      | some t =>
          exfalso
          obtain ⟨u, uid, r⟩ := t
          obtain ⟨h85, ⟨ids2, hm, hl2, _, hr2⟩, _⟩ :=
            bestFuzzy_some_spec ratio idx (lowerStr handle) u uid r hbf2
          have hle := hbound (u, ids2) hm hl2
          rw [← hr2] at hle
          exact absurd hle (not_le.mpr h85)
    cases hex : dictGet idx (lowerStr handle) with
    | none =>
        constructor
        · simp [usernameMatchOne, hex, hbf]
        · simp [discoverByUsername, hex, hbf]
    | some ids =>
        have hlen := hex1 ids hex
        constructor
        · simp [usernameMatchOne, hex, hbf, if_neg hlen]
        · simp [discoverByUsername, hex, hbf, if_neg hlen]
  · intro uid conf hex1 hd
    cases hex : dictGet idx (lowerStr handle) with
    | some ids =>
        have hlen := hex1 ids hex
        simp only [discoverByUsername, hex, if_neg hlen] at hd
        cases hbf : bestFuzzy ratio idx (lowerStr handle) with
        | none => rw [hbf] at hd; exact absurd hd (by simp)
        | some t =>
            obtain ⟨u, uid2, r⟩ := t
            rw [hbf] at hd
            obtain ⟨h85, ⟨ids2, hm, hl2, he2, hr2⟩, hall⟩ :=
              bestFuzzy_some_spec ratio idx (lowerStr handle) u uid2 r hbf
            have hd2 : (if uid2 ≠ "" then
                  some (uid2, if r > mkRat 19 20 then "high"
                    else if r > mkRat 9 10 then "medium" else "low")
                else none) = some (uid, conf) := hd
            by_cases huid : uid2 ≠ ""
            · rw [if_pos huid] at hd2
              have h12 := Option.some.inj hd2
              rw [Prod.mk.injEq] at h12
              obtain ⟨h1, h2⟩ := h12
              refine ⟨u, ids2, hm, hl2, ?_, ?_, ?_, ?_⟩
              · rw [← h1]; exact he2
              · rw [← hr2]; exact h85
              · intro e he hel
                rw [← hr2]; exact hall e he hel
              · rw [← h2, ← hr2]
            · rw [if_neg huid] at hd2
              exact absurd hd2 (by simp)
    | none =>
        simp only [discoverByUsername, hex] at hd
        cases hbf : bestFuzzy ratio idx (lowerStr handle) with
        | none => rw [hbf] at hd; exact absurd hd (by simp)
        | some t =>
            obtain ⟨u, uid2, r⟩ := t
            rw [hbf] at hd
            obtain ⟨h85, ⟨ids2, hm, hl2, he2, hr2⟩, hall⟩ :=
              bestFuzzy_some_spec ratio idx (lowerStr handle) u uid2 r hbf
            have hd2 : (if uid2 ≠ "" then
                  some (uid2, if r > mkRat 19 20 then "high"
                    else if r > mkRat 9 10 then "medium" else "low")
                else none) = some (uid, conf) := hd
            by_cases huid : uid2 ≠ ""
            · rw [if_pos huid] at hd2
              have h12 := Option.some.inj hd2
              rw [Prod.mk.injEq] at h12
              obtain ⟨h1, h2⟩ := h12
              refine ⟨u, ids2, hm, hl2, ?_, ?_, ?_, ?_⟩
              · rw [← h1]; exact he2
              · rw [← hr2]; exact h85
              · intro e he hel
                rw [← hr2]; exact hall e he hel
              · rw [← h2, ← hr2]
            · rw [if_neg huid] at hd2
              exact absurd hd2 (by simp)

/-- Handle of twenty letters a. -/
def handleC5 : String := "aaaaaaaaaaaaaaaaaaaa"

/-- Index with one unambiguous entry: twenty-one letters a owned by id3. -/
def idxC5 : List (String × List String) :=
  [("aaaaaaaaaaaaaaaaaaaaa", ["id3"])]

/-- Similarity on the pair at hand: SequenceMatcher on twenty versus
twenty-one letters a gives 2*20/(20+21) = 40/41, about 0.976. -/
def ratioC5 : String → String → ℚ := fun a b =>
  if a = handleC5 ∧ b = "aaaaaaaaaaaaaaaaaaaaa" then mkRat 40 41 else 0

/-- A fuzzy ratio of 40/41 is above 0.95, yet strategy_username_match
grades it medium while discover_by_username grades it high: the claimed
uniform high/medium/low scale does not hold in discover-player-ids.py. -/
theorem username_fuzzy_high_tier_counterexample :
    mkRat 19 20 < mkRat 40 41 ∧
    usernameMatchOne ratioC5 idxC5 handleC5 =
      some { userId := "id3", confidence := "medium", method := "username_fuzzy",
             evidence := DiscEvidence.usernameFuzzy handleC5 "aaaaaaaaaaaaaaaaaaaaa"
               (mkRat 40 41) } ∧
    discoverByUsername ratioC5 idxC5 handleC5 = some ("id3", "high") := by
  exact ⟨by decide, by decide, by decide⟩

/-- The fuzzy discovery record at the counterexample input. -/
def dC5 : Discovery :=
  { userId := "id3", confidence := "medium", method := "username_fuzzy",
    evidence := DiscEvidence.usernameFuzzy "aaaaaaaaaaaaaaaaaaaa" "aaaaaaaaaaaaaaaaaaaaa"
      (mkRat 40 41) }

/-- Witness: the fuzzy clause of username_match_resolution applies at the
concrete index, with every hypothesis discharged by evaluation. -/
theorem username_match_resolution_witness :
    (usernameMatchOne ratioC5 idxC5 handleC5 = some dC5 ∧
     dC5.method = "username_fuzzy") ∧
    (∃ u ids, (u, ids) ∈ idxC5 ∧ ids.length ≤ 1 ∧ dC5.userId = ids.headD "" ∧
      mkRat 85 100 < ratioC5 (lowerStr handleC5) u ∧
      (∀ e ∈ idxC5, e.2.length ≤ 1 →
        ratioC5 (lowerStr handleC5) e.1 ≤ ratioC5 (lowerStr handleC5) u) ∧
      dC5.confidence =
        (if ratioC5 (lowerStr handleC5) u > mkRat 9 10 then "medium" else "low")) :=
  ⟨⟨by decide, by decide⟩,
   (username_match_resolution ratioC5 idxC5 handleC5).2.1 dC5 (by decide) (by decide)⟩
